import Mathlib

/-!
Thermistor lookup-table generator: embedding and verified properties

A shallow embedding of `pkg/thermistor/thermistorlut.go`, `pkg/thermistor/steinhart.go`
and `models/thermistorstruct.go`.

* Go's `uint` is embedded as `Nat` with every arithmetic result reduced modulo `2 ^ 64`.
* Go's `float64` is embedded as an abstract carrier `F` together with a record `FloatOps F`
  of the operations the program applies to it.  Two interpretations are given:
  `exactOps` (exact arithmetic in an ordered field) and `ieeeOps` (exact rationals extended
  with the IEEE-754 special values: signed zeros, infinities and NaN); `roundedOps` adds the
  rounding of every result to 53 bits.
* A Go slice is a `List`; an index that is out of range is a run-time panic, embedded as
  `Failure.indexOutOfRange`.  In `GenerateLUT`, whose slice length is an argument of the call,
  the built-in `make` returns a slice only up to a largest length `maxLen`, a parameter of the
  embedding, and fails beyond it.  The slices made by `leastSquares`,
  `FindSteinhartCoefficients` and `CheckDeviation` are as long as inputs that are in memory
  already; their allocation is taken to succeed.
* A call returns `Except Failure α`: the value, the error value of the source, or a panic.
-/

namespace ThermistorLut

/-! ## Machine integers -/

/-- Width in bits of Go's `uint` on a 64-bit target. -/
def uintBits : Nat := 64

/-- Reduction of a natural number to the range of `uint`. -/
def wrapUint (n : Nat) : Nat := n % 2 ^ uintBits

/-- The `uint` sum `a + b`. -/
def uintAdd (a b : Nat) : Nat := wrapUint (a + b)

/-- The `uint` difference `a - b` of two values below `2 ^ 64`. -/
def uintSub (a b : Nat) : Nat := wrapUint (a + 2 ^ uintBits - b)

/-- The `uint` product `a * b`. -/
def uintMul (a b : Nat) : Nat := wrapUint (a * b)

/-- The `uint` shift `a << s`; Go yields `0` once `s` reaches the width. -/
def uintShl (a s : Nat) : Nat := wrapUint (a <<< s)

/-! ## Floating point operations -/

/-- The operations on `float64` used by the program. -/
structure FloatOps (F : Type) where
  /-- A decimal literal of the source text. -/
  ofRat : ℚ → F
  /-- The conversion `float64(u)` of a `uint`. -/
  ofUint : Nat → F
  add : F → F → F
  sub : F → F → F
  mul : F → F → F
  div : F → F → F
  /-- The library call `math.Log`. -/
  log : F → F
  /-- The library call `math.Abs`. -/
  abs : F → F
  /-- The comparison `x < y`. -/
  lt : F → F → Bool
  /-- The comparison `x == y`. -/
  eq : F → F → Bool

/-- The comparison `x > y`. -/
def FloatOps.gt {F : Type} (ops : FloatOps F) (x y : F) : Bool := ops.lt y x

/-- Exact arithmetic in an ordered field, with a given logarithm.  A division by zero gives
`0` in a field, where `float64` gives an infinity or NaN: this interpretation stands for the
program only where no divisor is zero. -/
def exactOps {F : Type} [LinearOrderedField F] (log : F → F) : FloatOps F where
  ofRat q := (q : F)
  ofUint n := (n : F)
  add x y := x + y
  sub x y := x - y
  mul x y := x * y
  div x y := x / y
  log := log
  abs x := |x|
  lt x y := decide (x < y)
  eq x y := decide (x = y)

/-- Values of `float64` with the special values of IEEE-754 kept and the finite values taken
exactly: NaN, the two infinities, the two signed zeros, and the nonzero rationals.  Rounding
and overflow of finite results are not represented. -/
inductive XFloat where
  | nan
  | inf (neg : Bool)
  | zero (neg : Bool)
  | fin (q : ℚ)
  deriving DecidableEq

namespace XFloat

/-- The value of a rational literal; the literal `0` is the positive zero. -/
def ofRat (q : ℚ) : XFloat := if q = 0 then zero false else fin q

/-- The sign bit of a value that is not NaN. -/
def signBit : XFloat → Bool
  | nan => false
  | inf s => s
  | zero s => s
  | fin q => decide (q < 0)

/-- Unary minus. -/
def neg : XFloat → XFloat
  | nan => nan
  | inf s => inf (!s)
  | zero s => zero (!s)
  | fin q => fin (-q)

/-- IEEE-754 addition: `inf - inf` is NaN, an exact sum of zero is the positive zero. -/
def add : XFloat → XFloat → XFloat
  | nan, _ => nan
  | _, nan => nan
  | inf s, inf t => if s = t then inf s else nan
  | inf s, _ => inf s
  | _, inf t => inf t
  | zero s, zero t => zero (s && t)
  | zero _, fin q => fin q
  | fin p, zero _ => fin p
  | fin p, fin q => ofRat (p + q)

/-- IEEE-754 subtraction. -/
def sub (x y : XFloat) : XFloat := add x (neg y)

/-- IEEE-754 multiplication: `0 * inf` is NaN, the sign is the exclusive or of the signs. -/
def mul : XFloat → XFloat → XFloat
  | nan, _ => nan
  | _, nan => nan
  | inf _, zero _ => nan
  | zero _, inf _ => nan
  | inf s, y => inf (xor s y.signBit)
  | x, inf t => inf (xor x.signBit t)
  | zero s, y => zero (xor s y.signBit)
  | x, zero t => zero (xor x.signBit t)
  | fin p, fin q => if p * q = 0 then zero (xor (decide (p < 0)) (decide (q < 0))) else fin (p * q)

/-- IEEE-754 division: `0 / 0` and `inf / inf` are NaN, a nonzero value over zero is an
infinity, the sign is the exclusive or of the signs. -/
def div : XFloat → XFloat → XFloat
  | nan, _ => nan
  | _, nan => nan
  | inf _, inf _ => nan
  | zero _, zero _ => nan
  | inf s, y => inf (xor s y.signBit)
  | x, inf t => zero (xor x.signBit t)
  | zero s, y => zero (xor s y.signBit)
  | x, zero t => inf (xor x.signBit t)
  | fin p, fin q => if p / q = 0 then zero (xor (decide (p < 0)) (decide (q < 0))) else fin (p / q)

/-- The library call `math.Log`: NaN for a negative argument, `-inf` at either zero, `+inf` at
`+inf`; on a positive finite argument the value is taken from `lg`. -/
def log (lg : ℚ → ℚ) : XFloat → XFloat
  | nan => nan
  | inf s => if s then nan else inf false
  | zero _ => inf true
  | fin q => if q < 0 then nan else ofRat (lg q)

/-- The library call `math.Abs`. -/
def abs : XFloat → XFloat
  | nan => nan
  | inf _ => inf false
  | zero _ => zero false
  | fin q => fin |q|

/-- The comparison `x < y`: false as soon as an operand is NaN; the two zeros are equal. -/
def lt : XFloat → XFloat → Bool
  | nan, _ => false
  | _, nan => false
  | inf s, inf t => s && !t
  | inf s, _ => s
  | _, inf t => !t
  | zero _, zero _ => false
  | zero _, fin q => decide (0 < q)
  | fin p, zero _ => decide (p < 0)
  | fin p, fin q => decide (p < q)

/-- The comparison `x <= y`: false as soon as an operand is NaN. -/
def le : XFloat → XFloat → Bool
  | nan, _ => false
  | _, nan => false
  | x, y => !(lt y x)

/-- The comparison `x == y`: false as soon as an operand is NaN; the two zeros are equal. -/
def eq : XFloat → XFloat → Bool
  | inf s, inf t => s == t
  | zero _, zero _ => true
  | fin p, fin q => decide (p = q)
  | _, _ => false

end XFloat

/-- Arithmetic of `float64` with its special values, exact on finite values; `lg` gives the
value of `math.Log` on positive finite arguments. -/
def ieeeOps (lg : ℚ → ℚ) : FloatOps XFloat where
  ofRat := XFloat.ofRat
  ofUint n := XFloat.ofRat (n : ℚ)
  add := XFloat.add
  sub := XFloat.sub
  mul := XFloat.mul
  div := XFloat.div
  log := XFloat.log lg
  abs := XFloat.abs
  lt := XFloat.lt
  eq := XFloat.eq

/-- Rounding of a rational to the nearest number with a significand of 53 bits, ties to the
even significand: the rounding `float64` applies to the exact result of an operation.  The
exponent is not bounded, so overflow and subnormal numbers are not represented. -/
def round53 (q : ℚ) : ℚ :=
  if q = 0 then 0
  else
    let e : ℤ := Int.log 2 |q| - 52
    let x : ℚ := q / (2 : ℚ) ^ e
    let f : ℤ := ⌊x⌋
    let r : ℤ :=
      if x - f < 1 / 2 then f
      else if 1 / 2 < x - f then f + 1
      else if f % 2 = 0 then f else f + 1
    (r : ℚ) * (2 : ℚ) ^ e

/-- Rounding of the exact result of an operation; the special values are kept. -/
def XFloat.round : XFloat → XFloat
  | .fin q => .fin (round53 q)
  | x => x

/-- Arithmetic of `float64` with its special values and with rounding: every literal and every
result of an operation is rounded to 53 bits; `lg` gives the exact value that `math.Log` rounds
on positive finite arguments. -/
def roundedOps (lg : ℚ → ℚ) : FloatOps XFloat where
  ofRat q := XFloat.round (XFloat.ofRat q)
  ofUint n := XFloat.round (XFloat.ofRat (n : ℚ))
  add x y := XFloat.round (XFloat.add x y)
  sub x y := XFloat.round (XFloat.sub x y)
  mul x y := XFloat.round (XFloat.mul x y)
  div x y := XFloat.round (XFloat.div x y)
  log x := XFloat.round (XFloat.log lg x)
  abs := XFloat.abs
  lt := XFloat.lt
  eq := XFloat.eq

/-- An interpretation of the operations over `XFloat` that agrees with IEEE-754 where no
rounding is involved: the comparison, the absolute value and the literal `0` are those of
`XFloat`, and a sum of two values that are not below zero, and the quotient of such a value
by a positive count, are not below zero.  The arithmetic is otherwise arbitrary, so every way
of rounding is covered. -/
structure IeeeCompatible (ops : FloatOps XFloat) : Prop where
  lt_eq : ∀ x y, ops.lt x y = XFloat.lt x y
  abs_eq : ∀ x, ops.abs x = XFloat.abs x
  zero_eq : ops.ofRat 0 = XFloat.zero false
  add_nonneg : ∀ x y, XFloat.le (XFloat.zero false) x = true →
    XFloat.le (XFloat.zero false) y = true →
    XFloat.le (XFloat.zero false) (ops.add x y) = true
  div_nonneg : ∀ x n, XFloat.le (XFloat.zero false) x = true → 0 < n →
    XFloat.le (XFloat.zero false) (ops.div x (ops.ofUint n)) = true

/-! ## models/thermistorstruct.go -/

/-- The constant `models.KelvinToCelsius = 273.15`. -/
def KelvinToCelsius {F : Type} (ops : FloatOps F) : F := ops.ofRat (27315 / 100)

/-- The constant `models.ResistanceMax = 1e9`. -/
def ResistanceMax {F : Type} (ops : FloatOps F) : F := ops.ofRat 1000000000

/-- The struct `models.ThermistorPoint`. -/
structure ThermistorPoint (F : Type) where
  Temp : F
  Resistance : F

/-- The struct `models.Config`. -/
structure Config (F : Type) where
  InputFile : String
  OutputDir : String
  BaseName : String
  LUTSize : Nat
  ADCResolution : Nat
  VoltageRef : F
  RS : F
  RP : F
  UpperLimitTemp : F
  LowerLimitTemp : F
  NameFlag : String
  FixedPoint : Nat

/-- The struct `models.DeviationTable`. -/
structure DeviationTable (F : Type) where
  Resistance : F
  TemperatureCSV : F
  TemperatureCalc : F
  Deviation : F

/-- The array type `[3]float64` of model coefficients. -/
structure Coeff (F : Type) where
  c0 : F
  c1 : F
  c2 : F

/-! ## pkg/thermistor/steinhart.go -/

/-- The function `SteinhartCalculation`. -/
def SteinhartCalculation {F : Type} (ops : FloatOps F) (resistance : F) (coeff : Coeff F) : F :=
  let lnR := ops.log resistance
  let lnR3 := ops.mul (ops.mul lnR lnR) lnR
  ops.div (ops.ofRat 1)
    (ops.add (ops.add coeff.c0 (ops.mul coeff.c1 lnR)) (ops.mul coeff.c2 lnR3))

/-- The three variables the loop of `CheckDeviation` updates. -/
structure DeviationState (F : Type) where
  fullTable : List (DeviationTable F)
  maxDev : F
  avgDev : F

/-- The row `CheckDeviation` appends for the point `p`. -/
def deviationRow {F : Type} (ops : FloatOps F) (coeff : Coeff F) (p : ThermistorPoint F) :
    DeviationTable F :=
  let tTemp := ops.sub (SteinhartCalculation ops p.Resistance coeff) (KelvinToCelsius ops)
  let deviation := ops.sub p.Temp tTemp
  { Resistance := p.Resistance, TemperatureCSV := p.Temp, TemperatureCalc := tTemp,
    Deviation := deviation }

/-- The body of the loop of `CheckDeviation` at the point `p`. -/
def deviationStep {F : Type} (ops : FloatOps F) (coeff : Coeff F) (s : DeviationState F)
    (p : ThermistorPoint F) : DeviationState F :=
  let row := deviationRow ops coeff p
  { fullTable := s.fullTable ++ [row]
    maxDev := if ops.gt (ops.abs row.Deviation) s.maxDev then ops.abs row.Deviation else s.maxDev
    avgDev := ops.add s.avgDev (ops.abs row.Deviation) }

/-- The function `CheckDeviation`: the table, `maxDev` and `avgDev`. -/
def CheckDeviation {F : Type} (ops : FloatOps F) (points : List (ThermistorPoint F))
    (coeff : Coeff F) : List (DeviationTable F) × F × F :=
  let s := points.foldl (deviationStep ops coeff)
    { fullTable := [], maxDev := ops.ofRat 0, avgDev := ops.ofRat 0 }
  (s.fullTable, s.maxDev, ops.div s.avgDev (ops.ofUint points.length))

/-! ## pkg/thermistor/thermistorlut.go -/

/-- The function `getResistanceFromADCValue`. -/
def getResistanceFromADCValue {F : Type} (ops : FloatOps F) (vRef : F) (adcValue adcBits : Nat)
    (rSeries rParallel : F) : F :=
  let adcMax : Nat := uintSub (uintShl 1 adcBits) 1
  if adcValue = 0 then ops.ofRat 0
  else if adcValue = adcMax then ResistanceMax ops
  else
    let vADC := ops.div (ops.mul vRef (ops.ofUint adcValue)) (ops.ofUint (uintAdd adcMax 1))
    let rTemp := ops.mul rSeries (ops.div vADC (ops.sub vRef vADC))
    if ops.eq rParallel (ops.ofRat 0) then rTemp
    else
      ops.div (ops.ofRat 1)
        (ops.sub (ops.div (ops.ofRat 1) rTemp) (ops.div (ops.ofRat 1) rParallel))

/-- The function `clampTemperature`. -/
def clampTemperature {F : Type} (ops : FloatOps F)
    (temperature tempUpperLimit tempLowerLimit : F) : F :=
  if ops.gt temperature tempUpperLimit then tempUpperLimit
  else if ops.lt temperature tempLowerLimit then tempLowerLimit
  else temperature

/-- The ways in which a call can fail to return its value. -/
inductive Failure where
  /-- The error value built by `fmt.Errorf`, returned with three nil slices. -/
  | lutSizeError (lutSize adcMax : Nat)
  /-- The run-time panic of an integer division by zero. -/
  | divideByZero
  /-- The run-time panic of a slice index out of range. -/
  | indexOutOfRange
  /-- The error value returned by the linear solver (`SingularSystemError` in the
  specification). -/
  | singularSystem
  /-- The panic of the matrix library on operands of the wrong shape. -/
  | shapeMismatch
  /-- The failure of `make` on a length the runtime cannot allocate: the panic
  `makeslice: len out of range`, or the fatal error `out of memory` where the length is in
  range and the memory is not there. -/
  | allocationFailure
  deriving DecidableEq, Repr

/-- The three slices returned by `GenerateLUT`. -/
structure LutArrays (F : Type) where
  tempValues : List F
  resistanceValues : List F
  adcValues : List Nat

/-- The indexed assignment `l[i] = a`. -/
def setAt {α : Type} (l : List α) (i : Nat) (a : α) : Except Failure (List α) :=
  if i < l.length then .ok (l.set i a) else .error .indexOutOfRange

/-- The indexed read `l[i]`. -/
def getAt {α : Type} (l : List α) (i : Nat) : Except Failure α :=
  match l[i]? with
  | some a => .ok a
  | none => .error .indexOutOfRange

/-- The built-in `make([]T, n)`.  The runtime returns a slice of `n` zero values when `n` is at
most `maxLen`, the largest length it can allocate for the element type on the machine at hand,
and fails otherwise.  `maxLen` is an argument: it is bounded by the platform (`maxSliceLen64`)
and by the memory that is free. -/
def makeSlice {α : Type} (maxLen n : Nat) (zero : α) : Except Failure (List α) :=
  if n ≤ maxLen then .ok (List.replicate n zero) else .error .allocationFailure

/-- The bound of a 64-bit platform on `maxLen` for elements of 8 bytes (`uint`, `float64`): the
runtime refuses every slice of more than `2 ^ 48` bytes.  It is the `maxLen` of the closed
examples below, whose tables have at most 5001 entries or at least `2 ^ 60`: a slice that
cannot be made under this bound cannot be made under a smaller one. -/
def maxSliceLen64 : Nat := 2 ^ 45

/-- The body of the loop of `GenerateLUT` at index `i`. -/
def lutStep {F : Type} (ops : FloatOps F) (cfg : Config F) (coeff : Coeff F) (stepSize : Nat)
    (s : LutArrays F) (i : Nat) : Except Failure (LutArrays F) := do
  let adcValues ← setAt s.adcValues i (uintMul i stepSize)
  let adcI ← getAt adcValues i
  let resistanceValues ← setAt s.resistanceValues i
    (getResistanceFromADCValue ops cfg.VoltageRef adcI cfg.ADCResolution
      (ops.mul cfg.RS (ops.ofRat 1000)) (ops.mul cfg.RP (ops.ofRat 1000)))
  let resistanceI ← getAt resistanceValues i
  let rawTemp := ops.sub (SteinhartCalculation ops resistanceI coeff) (KelvinToCelsius ops)
  let tempValues ← setAt s.tempValues i
    (clampTemperature ops rawTemp cfg.UpperLimitTemp cfg.LowerLimitTemp)
  pure { tempValues := tempValues, resistanceValues := resistanceValues, adcValues := adcValues }

/-- The function `GenerateLUT`.  The three slices are made first, before the size check; the
loop `for i := 1; i < LUTSize-1; i++` runs over the indices `1, ..., LUTSize-2`. -/
def GenerateLUT {F : Type} (maxLen : Nat) (ops : FloatOps F) (cfg : Config F)
    (coeff : Coeff F) : Except Failure (LutArrays F) := do
  let adcValues ← makeSlice maxLen cfg.LUTSize (0 : Nat)
  let resistanceValues ← makeSlice maxLen cfg.LUTSize (ops.ofRat 0)
  let tempValues ← makeSlice maxLen cfg.LUTSize (ops.ofRat 0)
  let adcMax : Nat := uintSub (uintShl 1 cfg.ADCResolution) 1
  if cfg.LUTSize > uintAdd adcMax 1 then
    .error (.lutSizeError cfg.LUTSize adcMax)
  else if cfg.LUTSize = 0 then
    .error .divideByZero
  else do
    let stepSize := uintAdd adcMax 1 / cfg.LUTSize
    let s ← (List.range' 1 (cfg.LUTSize - 1 - 1)).foldlM (lutStep ops cfg coeff stepSize)
      { tempValues := tempValues, resistanceValues := resistanceValues, adcValues := adcValues }
    let t0 ← setAt s.tempValues 0 cfg.UpperLimitTemp
    let t1 ← setAt t0 (cfg.LUTSize - 1) cfg.LowerLimitTemp
    pure { tempValues := t1, resistanceValues := s.resistanceValues, adcValues := s.adcValues }

/-! ## pkg/thermistor/steinhart.go: the fit -/

/-- The function `leastSquares`.  The calls into the matrix library (`mat.NewDense` on the
flattened rows, `mat.NewVecDense`, `QR.Factorize`, `QR.SolveVecTo`) are one argument `solve`,
which receives the two dimensions, the row-major data and the target and yields the solution
vector, the solver's error, or a panic. -/
def leastSquares {F : Type} (solve : Nat → Nat → List F → List F → Except Failure (List F))
    (X : List (List F)) (Y : List F) : Except Failure (List F) := do
  let rowsX := X.length
  let row0 ← getAt X 0
  let colsX := row0.length
  let flatX := X.flatten
  let beta ← solve rowsX colsX flatX Y
  (List.range colsX).mapM (fun i => getAt beta i)

/-- The function `FindSteinhartCoefficients`.  The flat slice `X` and its three-element
windows `X2D[i]` are the list of rows `[1, lnR, lnR*lnR*lnR]`; `copy` keeps the zero of the
array where `coeffs` is shorter than three. -/
def FindSteinhartCoefficients {F : Type} (ops : FloatOps F)
    (solve : Nat → Nat → List F → List F → Except Failure (List F))
    (points : List (ThermistorPoint F)) : Except Failure (Coeff F) := do
  let X2D := points.map (fun p =>
    let lnR := ops.log p.Resistance
    [ops.ofRat 1, lnR, ops.mul (ops.mul lnR lnR) lnR])
  let Y := points.map (fun p => ops.div (ops.ofRat 1) (ops.add p.Temp (KelvinToCelsius ops)))
  let coeffs ← leastSquares solve X2D Y
  pure { c0 := coeffs.getD 0 (ops.ofRat 0), c1 := coeffs.getD 1 (ops.ofRat 0),
         c2 := coeffs.getD 2 (ops.ofRat 0) }

/-! ## internal/csvparser/csvparser.go -/

/-- The errors `ReadCSV` returns. -/
inductive CsvError where
  /-- An error of `ParseThermistorCSV`, passed on unchanged. -/
  | parse (message : String)
  /-- The error "not enough points to calculate Steinhart coefficients. Minimum = 3". -/
  | notEnoughPoints
  deriving DecidableEq, Repr

/-- The warnings `ReadCSV` collects, with the count each message prints. -/
inductive CsvWarning where
  | tooMuchMetadata (entries : Nat)
  | lowPointCount (points : Nat)
  | largePointCount (points : Nat)
  deriving DecidableEq, Repr

/-- The four results of `ReadCSV`; a nil slice is the empty list. -/
structure ReadCSVResult (F : Type) where
  points : List (ThermistorPoint F)
  metadata : List (String × String)
  warnings : List CsvWarning
  err : Option CsvError

/-- The function `ReadCSV`, applied to what `ParseThermistorCSV` returned for the file. -/
def ReadCSV {F : Type}
    (parsed : Except String (List (String × String) × List (ThermistorPoint F))) :
    ReadCSVResult F :=
  match parsed with
  | .error e => { points := [], metadata := [], warnings := [], err := some (.parse e) }
  | .ok (metadata, points) =>
    let warnings : List CsvWarning :=
      if metadata.length > 20 then [.tooMuchMetadata metadata.length] else []
    if points.length < 3 then
      { points := [], metadata := [], warnings := warnings, err := some .notEnoughPoints }
    else if points.length < 6 then
      { points := points, metadata := metadata,
        warnings := warnings ++ [.lowPointCount points.length], err := none }
    else if points.length > 1000 then
      { points := points, metadata := metadata,
        warnings := warnings ++ [.largePointCount points.length], err := none }
    else
      { points := points, metadata := metadata, warnings := warnings, err := none }

/-! ## cmd/thermistor-gen/main.go -/

/-- The ways in which `main` stops before it has the coefficients. -/
inductive MainFailure where
  /-- The call `log.Fatal(err)` on the error of `ReadCSV`. -/
  | fatalCsv (err : CsvError)
  /-- The call `log.Fatal(err)` on the error of `FindSteinhartCoefficients`, or its panic. -/
  | fit (failure : Failure)
  deriving DecidableEq, Repr

/-- The first steps of `main`: `ReadCSV`, `log.Fatal` on its error, then
`FindSteinhartCoefficients` on the points it returned. -/
def mainCoefficients {F : Type} (ops : FloatOps F)
    (solve : Nat → Nat → List F → List F → Except Failure (List F))
    (parsed : Except String (List (String × String) × List (ThermistorPoint F))) :
    Except MainFailure (Coeff F) :=
  match (ReadCSV parsed).err with
  | some e => .error (.fatalCsv e)
  | none =>
    match FindSteinhartCoefficients ops solve (ReadCSV parsed).points with
    | .error f => .error (.fit f)
    | .ok coeff => .ok coeff

/-- The two tests on `LUTSize` at the end of `parseFlags`: `true` when one of them stops the
program with `log.Fatal`. -/
def parseFlagsRejects (lutSize adcResolution : Nat) : Bool :=
  (lutSize != 0 && (lutSize &&& uintSub lutSize 1) != 0)
    || decide (lutSize > uintShl 1 adcResolution)

/-! ## Closed form of the loop -/

/-- The resistance the loop body stores for the ADC code `v`. -/
def resistanceOf {F : Type} (ops : FloatOps F) (cfg : Config F) (v : Nat) : F :=
  getResistanceFromADCValue ops cfg.VoltageRef v cfg.ADCResolution
    (ops.mul cfg.RS (ops.ofRat 1000)) (ops.mul cfg.RP (ops.ofRat 1000))

/-- The temperature the loop body stores for the ADC code `v`. -/
def temperatureOf {F : Type} (ops : FloatOps F) (cfg : Config F) (coeff : Coeff F) (v : Nat) : F :=
  clampTemperature ops
    (ops.sub (SteinhartCalculation ops (resistanceOf ops cfg v) coeff) (KelvinToCelsius ops))
    cfg.UpperLimitTemp cfg.LowerLimitTemp

/-- The assignments `l[i] = f i` for the indices `i` of `is`, in order. -/
def setAll {α : Type} (f : Nat → α) (is : List Nat) (l : List α) : List α :=
  is.foldl (fun acc i => acc.set i (f i)) l

/-- The table `GenerateLUT` returns when it returns one: every slice starts out zeroed, the
loop fills the indices `1, ..., LUTSize-2`, and the two limits are stored last. -/
def lutClosedForm {F : Type} (ops : FloatOps F) (cfg : Config F) (coeff : Coeff F) :
    LutArrays F :=
  let stepSize := 2 ^ cfg.ADCResolution / cfg.LUTSize
  let is := List.range' 1 (cfg.LUTSize - 1 - 1)
  { tempValues :=
      ((setAll (fun i => temperatureOf ops cfg coeff (i * stepSize)) is
        (List.replicate cfg.LUTSize (ops.ofRat 0))).set 0 cfg.UpperLimitTemp).set
          (cfg.LUTSize - 1) cfg.LowerLimitTemp
    resistanceValues :=
      setAll (fun i => resistanceOf ops cfg (i * stepSize)) is
        (List.replicate cfg.LUTSize (ops.ofRat 0))
    adcValues := setAll (fun i => i * stepSize) is (List.replicate cfg.LUTSize 0) }

/-! ## Inputs taken from the test suite -/

/-- The configuration of `TestGenerateLUT` (3.3 V, 10 kΩ in series, 100 kΩ in parallel, limits
100 °C and 0 °C), with the table size and the ADC resolution left as arguments. -/
def testConfig {F : Type} (ops : FloatOps F) (lutSize adcResolution : Nat) : Config F :=
  { InputFile := ""
    OutputDir := ""
    BaseName := ""
    LUTSize := lutSize
    ADCResolution := adcResolution
    VoltageRef := ops.ofRat (33 / 10)
    RS := ops.ofRat 10
    RP := ops.ofRat 100
    UpperLimitTemp := ops.ofRat 100
    LowerLimitTemp := ops.ofRat 0
    NameFlag := ""
    FixedPoint := 0 }

/-- The coefficients `testSteinhartCoeff` of `helper_test.go`. -/
def testSteinhartCoeff {F : Type} (ops : FloatOps F) : Coeff F :=
  { c0 := ops.ofRat (9032678970 / 10000000000000)
    c1 := ops.ofRat (2487719619 / 10000000000000)
    c2 := ops.ofRat (2041094451 / 10000000000000000) }

/-- A stand-in for the values of `math.Log` on positive arguments, used where a concrete
interpretation is needed and the logarithm of a positive number plays no part. -/
def stubLog : ℚ → ℚ := fun _ => 0

/-- The interpretation `ieeeOps` with the stand-in logarithm. -/
def stubOps : FloatOps XFloat := ieeeOps stubLog

/-! ## The specification's formulas -/

/-- The design matrix of a slice of rows with `c` columns: the entry `(i, j)` is `X[i][j]`. -/
def designMatrix {F : Type} [Zero F] (X : List (List F)) (c : Nat) :
    Matrix (Fin X.length) (Fin c) F :=
  Matrix.of (fun i j => (X.getD i.val []).getD j.val 0)

/-- The vector of a slice read at `r` indices: the entry `i` is `Y[i]`. -/
def sliceVector {F : Type} [Zero F] (Y : List F) (r : Nat) : Fin r → F :=
  fun i => Y.getD i.val 0

/-- The sum of squared residuals `|A z - b|^2` of the specification. -/
def sumSquaredResiduals {F : Type} [LinearOrderedField F] {m n : Nat}
    (A : Matrix (Fin m) (Fin n) F) (z : Fin n → F) (b : Fin m → F) : F :=
  ∑ i, (Matrix.mulVec A z i - b i) ^ 2

/-! ## The linear solver -/

/-- The core of the solver: QR by Gram-Schmidt, one column at a time, then back-substitution.
The first column `q` is kept as a column of `Q`; `r j = ⟨q, a j⟩ / ⟨q, q⟩` is a row of `R`;
the other columns and the target are made orthogonal to `q`; the reduced system is solved; the
first coefficient follows by back-substitution.  The result is `none` when a column has
become zero, that is when the columns are linearly dependent. -/
def orthoSolve {F : Type} [LinearOrderedField F] {m : Nat} :
    (n : Nat) → (Fin n → Fin m → F) → (Fin m → F) → Option (Fin n → F)
  | 0, _, _ => some (fun i => i.elim0)
  | n + 1, a, y =>
    let q := a 0
    let d := Matrix.dotProduct q q
    if d = 0 then none
    else
      let r : Fin n → F := fun j => Matrix.dotProduct q (a j.succ) / d
      let c := Matrix.dotProduct q y / d
      match orthoSolve n (fun j => a j.succ - r j • q) (y - c • q) with
      | none => none
      | some β => some (Fin.cons (c - ∑ j, r j * β j) β)

/-- Modelled from the spec: the linear solver of the Coefficient Solver (sections 4.1 and 9,
`factorizeAndSolve(designMatrix, targetVector) → coefficients | SingularSystemError`), which
the program takes from the matrix library `gonum/mat`; the library is not part of the
repository.  It "solves the overdetermined linear system in the least-squares sense using an
orthogonal (QR) decomposition of the design matrix followed by back-substitution", here in
exact arithmetic.  A system whose columns are linearly dependent has no solution of this kind
and is the `SingularSystemError`; data that is not `rows * cols` long or a target that is not
`rows` long is not a system at all. -/
def qrSolve {F : Type} [LinearOrderedField F] (rows cols : Nat) (data : List F) (y : List F) :
    Except Failure (List F) :=
  if data.length ≠ rows * cols ∨ y.length ≠ rows then
    .error .shapeMismatch
  else
    match orthoSolve (m := rows) cols (fun j i => data.getD (i.val * cols + j.val) 0)
        (fun i => y.getD i.val 0) with
    | none => .error .singularSystem
    | some β => .ok (List.ofFn β)

/-! ## Auxiliary facts: machine integers -/

theorem uintShl_one_of_lt {s : Nat} (h : s < 64) : uintShl 1 s = 2 ^ s := by
  have h2 : 2 ^ s < 2 ^ 64 := Nat.pow_lt_pow_right (by decide) h
  simp only [uintShl, wrapUint, uintBits, Nat.shiftLeft_eq, Nat.one_mul]
  exact Nat.mod_eq_of_lt h2

theorem uintShl_one_of_ge {s : Nat} (h : 64 ≤ s) : uintShl 1 s = 0 := by
  simp only [uintShl, wrapUint, uintBits, Nat.shiftLeft_eq, Nat.one_mul]
  exact Nat.mod_eq_zero_of_dvd (Nat.pow_dvd_pow 2 h)

theorem adcMax_of_lt {s : Nat} (h : s < 64) : uintSub (uintShl 1 s) 1 = 2 ^ s - 1 := by
  have h2 : 2 ^ s < 2 ^ 64 := Nat.pow_lt_pow_right (by decide) h
  have h1 : 0 < 2 ^ s := Nat.pow_pos (by decide)
  rw [uintShl_one_of_lt h]
  simp only [uintSub, wrapUint, uintBits]
  omega

theorem adcMax_of_ge {s : Nat} (h : 64 ≤ s) : uintSub (uintShl 1 s) 1 = 2 ^ 64 - 1 := by
  rw [uintShl_one_of_ge h]
  simp [uintSub, wrapUint, uintBits]

theorem uintAdd_pred_pow {s : Nat} (h : s < 64) : uintAdd (2 ^ s - 1) 1 = 2 ^ s := by
  have h2 : 2 ^ s < 2 ^ 64 := Nat.pow_lt_pow_right (by decide) h
  have h1 : 0 < 2 ^ s := Nat.pow_pos (by decide)
  simp only [uintAdd, wrapUint, uintBits]
  omega

theorem adcMax_succ_of_lt {s : Nat} (h : s < 64) :
    uintAdd (uintSub (uintShl 1 s) 1) 1 = 2 ^ s := by
  rw [adcMax_of_lt h, uintAdd_pred_pow h]

theorem adcMax_succ_of_ge {s : Nat} (h : 64 ≤ s) :
    uintAdd (uintSub (uintShl 1 s) 1) 1 = 0 := by
  rw [adcMax_of_ge h]
  simp [uintAdd, wrapUint, uintBits]

theorem uintMul_of_le {i n s : Nat} (hs : s < 64) (hi : i ≤ n) :
    uintMul i (2 ^ s / n) = i * (2 ^ s / n) := by
  have h2 : 2 ^ s < 2 ^ 64 := Nat.pow_lt_pow_right (by decide) hs
  have h3 : i * (2 ^ s / n) ≤ n * (2 ^ s / n) := Nat.mul_le_mul_right _ hi
  have h4 : n * (2 ^ s / n) ≤ 2 ^ s := Nat.mul_div_le _ _
  simp only [uintMul, wrapUint, uintBits]
  exact Nat.mod_eq_of_lt (by omega)

/-! ## Auxiliary facts: the power-of-two test -/

theorem testBit_of_two_pow_le {n k : Nat} (h1 : 2 ^ k ≤ n) (h2 : n < 2 ^ k * 2) :
    n.testBit k = true := by
  obtain ⟨r, rfl⟩ : ∃ r, n = 2 ^ k + r := ⟨n - 2 ^ k, by omega⟩
  rw [Nat.testBit_two_pow_add_eq, Nat.testBit_lt_two_pow (by omega)]
  rfl

theorem land_pred_ne_zero {n : Nat} (hn : 0 < n) (hnp : ¬ ∃ k, n = 2 ^ k) :
    n &&& (n - 1) ≠ 0 := by
  have h1 : 2 ^ Nat.log 2 n ≤ n := Nat.pow_log_le_self 2 (by omega)
  have h2 : n < 2 ^ (Nat.log 2 n).succ := Nat.lt_pow_succ_log_self (by decide) n
  have h3 : n ≠ 2 ^ Nat.log 2 n := fun h => hnp ⟨_, h⟩
  rw [Nat.pow_succ] at h2
  intro h0
  have hb : (n &&& (n - 1)).testBit (Nat.log 2 n) = true := by
    rw [Nat.testBit_and, testBit_of_two_pow_le h1 h2,
      testBit_of_two_pow_le (show 2 ^ Nat.log 2 n ≤ n - 1 by omega) (by omega)]
    rfl
  rw [h0, Nat.zero_testBit] at hb
  cases hb

theorem parseFlagsRejects_of_not_power_of_two (n r : Nat) (hn : 0 < n) (hlt : n < 2 ^ 64)
    (hnp : ¬ ∃ k, n = 2 ^ k) : parseFlagsRejects n r = true := by
  have hsub : uintSub n 1 = n - 1 := by
    simp only [uintSub, wrapUint, uintBits]
    omega
  have h := land_pred_ne_zero hn hnp
  have hn0 : n ≠ 0 := by omega
  simp [parseFlagsRejects, hsub, h, hn0]

/-! ## Auxiliary facts: the loop -/

theorem length_setAll {α : Type} (f : Nat → α) (is : List Nat) (l : List α) :
    (setAll f is l).length = l.length := by
  induction is generalizing l with
  | nil => rfl
  | cons i is ih => simp only [setAll, List.foldl_cons] at ih ⊢; rw [ih]; simp

theorem getElem?_setAll {α : Type} (f : Nat → α) (is : List Nat) (l : List α) (j : Nat)
    (hj : j < l.length) :
    (setAll f is l)[j]? = if j ∈ is then some (f j) else l[j]? := by
  induction is generalizing l with
  | nil => simp [setAll]
  | cons i is ih =>
    simp only [setAll, List.foldl_cons] at ih ⊢
    rw [ih (l.set i (f i)) (by simpa using hj)]
    by_cases h1 : j ∈ is
    · simp [h1]
    · by_cases h2 : j = i
      · subst h2
        simp [h1, hj]
      · have h3 : i ≠ j := fun h => h2 h.symm
        simp [h1, h2, List.getElem?_set_ne h3]

theorem lutStep_ok {F : Type} (ops : FloatOps F) (cfg : Config F) (coeff : Coeff F)
    (stepSize : Nat) (s : LutArrays F) (i : Nat)
    (h1 : i < s.adcValues.length) (h2 : i < s.resistanceValues.length)
    (h3 : i < s.tempValues.length) :
    lutStep ops cfg coeff stepSize s i = .ok
      { tempValues := s.tempValues.set i (temperatureOf ops cfg coeff (uintMul i stepSize))
        resistanceValues := s.resistanceValues.set i (resistanceOf ops cfg (uintMul i stepSize))
        adcValues := s.adcValues.set i (uintMul i stepSize) } := by
  simp [lutStep, setAt, getAt, h1, h2, h3, bind, Except.bind, pure, Except.pure,
    temperatureOf, resistanceOf]

theorem foldlM_lutStep_ok {F : Type} (ops : FloatOps F) (cfg : Config F) (coeff : Coeff F)
    (stepSize : Nat) (is : List Nat) (s : LutArrays F)
    (h1 : ∀ i ∈ is, i < s.adcValues.length) (h2 : ∀ i ∈ is, i < s.resistanceValues.length)
    (h3 : ∀ i ∈ is, i < s.tempValues.length) :
    is.foldlM (lutStep ops cfg coeff stepSize) s = .ok
      { tempValues :=
          setAll (fun i => temperatureOf ops cfg coeff (uintMul i stepSize)) is s.tempValues
        resistanceValues :=
          setAll (fun i => resistanceOf ops cfg (uintMul i stepSize)) is s.resistanceValues
        adcValues := setAll (fun i => uintMul i stepSize) is s.adcValues } := by
  induction is generalizing s with
  | nil => rfl
  | cons i is ih =>
    rw [List.foldlM_cons, lutStep_ok ops cfg coeff stepSize s i
      (h1 i (List.mem_cons_self _ _)) (h2 i (List.mem_cons_self _ _))
      (h3 i (List.mem_cons_self _ _))]
    simp only [bind, Except.bind]
    rw [ih]
    · simp [setAll]
    · intro k hk; simpa using h1 k (List.mem_cons_of_mem _ hk)
    · intro k hk; simpa using h2 k (List.mem_cons_of_mem _ hk)
    · intro k hk; simpa using h3 k (List.mem_cons_of_mem _ hk)

theorem setAll_congr {α : Type} (f g : Nat → α) (is : List Nat) (l : List α)
    (h : ∀ i ∈ is, f i = g i) : setAll f is l = setAll g is l := by
  induction is generalizing l with
  | nil => rfl
  | cons i is ih =>
    simp only [setAll, List.foldl_cons] at ih ⊢
    rw [h i (List.mem_cons_self _ _)]
    exact ih _ (fun k hk => h k (List.mem_cons_of_mem _ hk))

/-- Once the three slices are made, `GenerateLUT` is the rest of its body. -/
theorem GenerateLUT_of_le {F : Type} (maxLen : Nat) (ops : FloatOps F) (cfg : Config F)
    (coeff : Coeff F) (hmax : cfg.LUTSize ≤ maxLen) :
    GenerateLUT maxLen ops cfg coeff =
      (if cfg.LUTSize > uintAdd (uintSub (uintShl 1 cfg.ADCResolution) 1) 1 then
        .error (.lutSizeError cfg.LUTSize (uintSub (uintShl 1 cfg.ADCResolution) 1))
      else if cfg.LUTSize = 0 then
        .error .divideByZero
      else do
        let s ← (List.range' 1 (cfg.LUTSize - 1 - 1)).foldlM
          (lutStep ops cfg coeff
            (uintAdd (uintSub (uintShl 1 cfg.ADCResolution) 1) 1 / cfg.LUTSize))
          { tempValues := List.replicate cfg.LUTSize (ops.ofRat 0)
            resistanceValues := List.replicate cfg.LUTSize (ops.ofRat 0)
            adcValues := List.replicate cfg.LUTSize 0 }
        let t0 ← setAt s.tempValues 0 cfg.UpperLimitTemp
        let t1 ← setAt t0 (cfg.LUTSize - 1) cfg.LowerLimitTemp
        pure { tempValues := t1, resistanceValues := s.resistanceValues,
               adcValues := s.adcValues }) := by
  unfold GenerateLUT
  simp only [makeSlice, if_pos hmax]
  rfl

/-- A table longer than the runtime can allocate: `GenerateLUT` fails in `make`, before the
size check. -/
theorem GenerateLUT_of_gt {F : Type} (maxLen : Nat) (ops : FloatOps F) (cfg : Config F)
    (coeff : Coeff F) (hmax : maxLen < cfg.LUTSize) :
    GenerateLUT maxLen ops cfg coeff = .error .allocationFailure := by
  unfold GenerateLUT
  simp only [makeSlice, if_neg (Nat.not_le.mpr hmax)]
  rfl

/-- Whenever `1 ≤ LUTSize ≤ 2 ^ ADCResolution`, the resolution fits the word and the slices can
be made, `GenerateLUT` returns the closed-form table. -/
theorem GenerateLUT_eq_closedForm {F : Type} (maxLen : Nat) (ops : FloatOps F) (cfg : Config F)
    (coeff : Coeff F) (hmax : cfg.LUTSize ≤ maxLen) (hn : 0 < cfg.LUTSize)
    (hle : cfg.LUTSize ≤ 2 ^ cfg.ADCResolution) (hres : cfg.ADCResolution < 64) :
    GenerateLUT maxLen ops cfg coeff = .ok (lutClosedForm ops cfg coeff) := by
  have hmem : ∀ i ∈ List.range' 1 (cfg.LUTSize - 1 - 1), i < cfg.LUTSize := by
    intro i hi
    rw [List.mem_range'_1] at hi
    omega
  have hmul : ∀ i ∈ List.range' 1 (cfg.LUTSize - 1 - 1),
      uintMul i (2 ^ cfg.ADCResolution / cfg.LUTSize)
        = i * (2 ^ cfg.ADCResolution / cfg.LUTSize) :=
    fun i hi => uintMul_of_le hres (Nat.le_of_lt (hmem i hi))
  rw [GenerateLUT_of_le maxLen ops cfg coeff hmax]
  simp only [adcMax_of_lt hres, uintAdd_pred_pow hres]
  rw [if_neg (by omega), if_neg (by omega)]
  rw [foldlM_lutStep_ok _ _ _ _ _ _ (by simpa using hmem) (by simpa using hmem)
    (by simpa using hmem)]
  simp only [bind, Except.bind, setAt, List.length_set, length_setAll, List.length_replicate,
    if_pos hn, if_pos (show cfg.LUTSize - 1 < cfg.LUTSize by omega), pure, Except.pure,
    lutClosedForm]
  rw [setAll_congr _ _ _ _ hmul,
    setAll_congr (fun i => temperatureOf ops cfg coeff
      (uintMul i (2 ^ cfg.ADCResolution / cfg.LUTSize)))
      (fun i => temperatureOf ops cfg coeff (i * (2 ^ cfg.ADCResolution / cfg.LUTSize)))
      _ _ (fun i hi => by simp only [hmul i hi]),
    setAll_congr (fun i => resistanceOf ops cfg
      (uintMul i (2 ^ cfg.ADCResolution / cfg.LUTSize)))
      (fun i => resistanceOf ops cfg (i * (2 ^ cfg.ADCResolution / cfg.LUTSize)))
      _ _ (fun i hi => by simp only [hmul i hi])]

/-! ## Auxiliary facts: entries of the closed form -/

theorem closedForm_length_temp {F : Type} (ops : FloatOps F) (cfg : Config F) (coeff : Coeff F) :
    (lutClosedForm ops cfg coeff).tempValues.length = cfg.LUTSize := by
  simp [lutClosedForm, length_setAll]

theorem closedForm_length_resistance {F : Type} (ops : FloatOps F) (cfg : Config F)
    (coeff : Coeff F) :
    (lutClosedForm ops cfg coeff).resistanceValues.length = cfg.LUTSize := by
  simp [lutClosedForm, length_setAll]

theorem closedForm_length_adc {F : Type} (ops : FloatOps F) (cfg : Config F) (coeff : Coeff F) :
    (lutClosedForm ops cfg coeff).adcValues.length = cfg.LUTSize := by
  simp [lutClosedForm, length_setAll]

theorem closedForm_adc {F : Type} (ops : FloatOps F) (cfg : Config F) (coeff : Coeff F)
    (j : Nat) (hj : j < cfg.LUTSize) :
    (lutClosedForm ops cfg coeff).adcValues[j]? =
      some (if 1 ≤ j ∧ j + 1 < cfg.LUTSize then j * (2 ^ cfg.ADCResolution / cfg.LUTSize)
        else 0) := by
  simp only [lutClosedForm]
  have hm : j ∈ List.range' 1 (cfg.LUTSize - 1 - 1) ↔ 1 ≤ j ∧ j + 1 < cfg.LUTSize := by
    rw [List.mem_range'_1]; omega
  rw [getElem?_setAll _ _ _ _ (by simpa using hj)]
  by_cases h : 1 ≤ j ∧ j + 1 < cfg.LUTSize
  · rw [if_pos h, if_pos (hm.mpr h)]
  · rw [if_neg h, if_neg (fun hc => h (hm.mp hc))]
    simp [hj]

theorem closedForm_resistance {F : Type} (ops : FloatOps F) (cfg : Config F) (coeff : Coeff F)
    (j : Nat) (hj : j < cfg.LUTSize) :
    (lutClosedForm ops cfg coeff).resistanceValues[j]? =
      some (if 1 ≤ j ∧ j + 1 < cfg.LUTSize
        then resistanceOf ops cfg (j * (2 ^ cfg.ADCResolution / cfg.LUTSize))
        else ops.ofRat 0) := by
  simp only [lutClosedForm]
  have hm : j ∈ List.range' 1 (cfg.LUTSize - 1 - 1) ↔ 1 ≤ j ∧ j + 1 < cfg.LUTSize := by
    rw [List.mem_range'_1]; omega
  rw [getElem?_setAll _ _ _ _ (by simpa using hj)]
  by_cases h : 1 ≤ j ∧ j + 1 < cfg.LUTSize
  · rw [if_pos h, if_pos (hm.mpr h)]
  · rw [if_neg h, if_neg (fun hc => h (hm.mp hc))]
    simp [hj]

theorem closedForm_temp {F : Type} (ops : FloatOps F) (cfg : Config F) (coeff : Coeff F)
    (j : Nat) (hj : j < cfg.LUTSize) :
    (lutClosedForm ops cfg coeff).tempValues[j]? =
      some (if j + 1 = cfg.LUTSize then cfg.LowerLimitTemp
        else if j = 0 then cfg.UpperLimitTemp
        else temperatureOf ops cfg coeff (j * (2 ^ cfg.ADCResolution / cfg.LUTSize))) := by
  simp only [lutClosedForm]
  by_cases h1 : j + 1 = cfg.LUTSize
  · have h2 : cfg.LUTSize - 1 = j := by omega
    rw [if_pos h1, h2, List.getElem?_set_self (by simpa [length_setAll] using hj)]
  · have h2 : cfg.LUTSize - 1 ≠ j := by omega
    rw [if_neg h1, List.getElem?_set_ne h2]
    by_cases h3 : j = 0
    · subst h3
      rw [if_pos rfl, List.getElem?_set_self (by simpa [length_setAll] using hj)]
    · have h4 : 0 ≠ j := fun h => h3 h.symm
      have hm : j ∈ List.range' 1 (cfg.LUTSize - 1 - 1) := by
        rw [List.mem_range'_1]; omega
      rw [if_neg h3, List.getElem?_set_ne h4, getElem?_setAll _ _ _ _ (by simpa using hj),
        if_pos hm]

/-! ## Auxiliary facts: special values of `float64` -/

theorem XFloat.ofRat_of_ne {q : ℚ} (h : q ≠ 0) : XFloat.ofRat q = XFloat.fin q := by
  simp [XFloat.ofRat, h]

theorem XFloat.mul_fin_fin {p q : ℚ} (hp : p ≠ 0) (hq : q ≠ 0) :
    XFloat.mul (XFloat.fin p) (XFloat.fin q) = XFloat.fin (p * q) := by
  simp [XFloat.mul, hp, hq]

theorem XFloat.div_fin_fin {p q : ℚ} (hp : p ≠ 0) (hq : q ≠ 0) :
    XFloat.div (XFloat.fin p) (XFloat.fin q) = XFloat.fin (p / q) := by
  simp [XFloat.div, hp, hq]

theorem XFloat.sub_fin_fin {p q : ℚ} (h : p - q ≠ 0) :
    XFloat.sub (XFloat.fin p) (XFloat.fin q) = XFloat.fin (p - q) := by
  have h2 : p + -q ≠ 0 := by rwa [← sub_eq_add_neg]
  simp [XFloat.sub, XFloat.neg, XFloat.add, XFloat.ofRat, h2, sub_eq_add_neg]

theorem XFloat.log_fin_of_neg (lg : ℚ → ℚ) {q : ℚ} (h : q < 0) :
    XFloat.log lg (XFloat.fin q) = XFloat.nan := by
  simp [XFloat.log, h]

theorem XFloat.mul_nan (x : XFloat) : XFloat.mul x XFloat.nan = XFloat.nan := by
  cases x <;> rfl

theorem XFloat.add_nan (x : XFloat) : XFloat.add x XFloat.nan = XFloat.nan := by
  cases x <;> rfl

theorem XFloat.div_nan (x : XFloat) : XFloat.div x XFloat.nan = XFloat.nan := by
  cases x <;> rfl

theorem XFloat.lt_nan (x : XFloat) : XFloat.lt x XFloat.nan = false := by
  cases x <;> rfl

theorem XFloat.nan_sub (x : XFloat) : XFloat.sub XFloat.nan x = XFloat.nan := by
  cases x <;> rfl

theorem XFloat.nan_lt (x : XFloat) : XFloat.lt XFloat.nan x = false := by
  cases x <;> rfl

theorem XFloat.sub_fin_fin_of_eq {p q : ℚ} (h : p - q = 0) :
    XFloat.sub (XFloat.fin p) (XFloat.fin q) = XFloat.zero false := by
  have h2 : p + -q = 0 := by rwa [← sub_eq_add_neg]
  simp [XFloat.sub, XFloat.neg, XFloat.add, XFloat.ofRat, h2]

/-! ## Auxiliary facts: order and rounding of `float64` -/

theorem XFloat.le_of_lt_false {x y : XFloat} (hx : x ≠ XFloat.nan) (hy : y ≠ XFloat.nan)
    (h : XFloat.lt x y = false) : XFloat.le y x = true := by
  cases x <;> cases y <;> simp_all [XFloat.le]

theorem XFloat.le_of_lt_true {x y : XFloat} (h : XFloat.lt x y = true) : XFloat.le x y = true := by
  cases x <;> cases y <;> simp_all [XFloat.le, XFloat.lt] <;> linarith

theorem XFloat.le_chain {x y z : XFloat} (h1 : XFloat.le x y = true)
    (h2 : XFloat.le y z = true) : XFloat.le x z = true := by
  cases x <;> cases y <;> cases z <;> simp_all [XFloat.le, XFloat.lt] <;>
    first
    | linarith
    | (rename_i a b c; revert h1 h2; cases a <;> cases b <;> cases c <;> simp)

theorem XFloat.le_self {x : XFloat} (hx : x ≠ XFloat.nan) : XFloat.le x x = true := by
  cases x <;> simp_all [XFloat.le, XFloat.lt]

theorem XFloat.abs_ne_nan {x : XFloat} (hx : x ≠ XFloat.nan) : XFloat.abs x ≠ XFloat.nan := by
  cases x <;> simp_all [XFloat.abs]

theorem XFloat.zero_le_abs {x : XFloat} (hx : x ≠ XFloat.nan) :
    XFloat.le (XFloat.zero false) (XFloat.abs x) = true := by
  cases x <;> simp_all [XFloat.abs, XFloat.le, XFloat.lt]

theorem XFloat.ne_nan_of_lt_right {x y : XFloat} (h : XFloat.lt x y = true) :
    y ≠ XFloat.nan := by
  cases x <;> cases y <;> simp_all [XFloat.lt]

theorem XFloat.zero_le_add {x y : XFloat} (hx : XFloat.le (XFloat.zero false) x = true)
    (hy : XFloat.le (XFloat.zero false) y = true) :
    XFloat.le (XFloat.zero false) (XFloat.add x y) = true := by
  cases x <;> cases y <;> simp_all [XFloat.le, XFloat.lt, XFloat.add, XFloat.ofRat]
  rename_i p q
  have hpq : p + q ≠ 0 ∨ p + q = 0 := by
    by_cases h : p + q = 0
    · exact Or.inr h
    · exact Or.inl h
  rcases hpq with h | h
  · rw [if_neg h]
    simp only [XFloat.le, XFloat.lt, Bool.not_eq_true', decide_eq_false_iff_not, not_lt]
    linarith
  · rw [if_pos h]
    rfl

theorem XFloat.zero_le_div_ofRat {x : XFloat} (n : Nat)
    (hx : XFloat.le (XFloat.zero false) x = true) (hn : 0 < n) :
    XFloat.le (XFloat.zero false) (XFloat.div x (XFloat.ofRat (n : ℚ))) = true := by
  have hq : (0 : ℚ) < n := by exact_mod_cast hn
  have h0 : ¬ ((n : ℚ) < 0) := not_lt.mpr (le_of_lt hq)
  have hn0 : (n : ℚ) ≠ 0 := ne_of_gt hq
  rw [XFloat.ofRat_of_ne hn0]
  cases x with
  | nan => simp [XFloat.le] at hx
  | inf s =>
    cases s with
    | true => simp [XFloat.le, XFloat.lt] at hx
    | false => simp [XFloat.div, XFloat.signBit, h0, XFloat.le, XFloat.lt]
  | zero s => cases s <;> simp [XFloat.div, XFloat.signBit, h0, XFloat.le, XFloat.lt]
  | fin p =>
    have hp : 0 ≤ p := by
      simpa [XFloat.le, XFloat.lt] using hx
    by_cases h : p / (n : ℚ) = 0
    · simp only [XFloat.div, h, if_true]
      cases decide (p < 0) <;> simp [XFloat.le, XFloat.lt, h0]
    · have h1 : 0 ≤ p / (n : ℚ) := div_nonneg hp (le_of_lt hq)
      simp only [XFloat.div, h, if_false]
      simp [XFloat.le, XFloat.lt, h1]

theorem ieeeOps_compatible (lg : ℚ → ℚ) : IeeeCompatible (ieeeOps lg) where
  lt_eq _ _ := rfl
  abs_eq _ := rfl
  zero_eq := by simp [ieeeOps, XFloat.ofRat]
  add_nonneg _ _ hx hy := XFloat.zero_le_add hx hy
  div_nonneg _ n hx hn := XFloat.zero_le_div_ofRat n hx hn

theorem intLog_two_eq {q : ℚ} {n : ℤ} (hlo : (2 : ℚ) ^ n ≤ q) (hhi : q < (2 : ℚ) ^ (n + 1)) :
    Int.log 2 q = n := by
  have hq : 0 < q := lt_of_lt_of_le (by positivity) hlo
  have h1 : n ≤ Int.log 2 q :=
    (Int.zpow_le_iff_le_log (b := 2) (by norm_num) hq).mp (by exact_mod_cast hlo)
  have h2 : Int.log 2 q < n + 1 :=
    (Int.lt_zpow_iff_log_lt (b := 2) (by norm_num) hq).mp (by exact_mod_cast hhi)
  omega

/-- A positive number within half a unit in the last place of `m * 2 ^ e` rounds to it. -/
theorem round53_of_near {q r : ℚ} (e m : ℤ) (hr : r = (m : ℚ) * (2 : ℚ) ^ e)
    (hlo : (2 : ℚ) ^ (e + 52) ≤ q) (hhi : q < (2 : ℚ) ^ (e + 52 + 1))
    (h1 : (m : ℚ) - 1 / 2 < q / (2 : ℚ) ^ e) (h2 : q / (2 : ℚ) ^ e < (m : ℚ) + 1 / 2) :
    round53 q = r := by
  have hq : 0 < q := lt_of_lt_of_le (by positivity) hlo
  have hlog : Int.log 2 |q| - 52 = e := by
    rw [abs_of_pos hq, intLog_two_eq hlo hhi]
    omega
  unfold round53
  rw [if_neg (ne_of_gt hq)]
  simp only [hlog]
  rw [hr]
  congr 1
  by_cases hm : (m : ℚ) ≤ q / (2 : ℚ) ^ e
  · have hf : ⌊q / (2 : ℚ) ^ e⌋ = m := by
      rw [Int.floor_eq_iff]
      exact ⟨hm, by linarith⟩
    rw [hf, if_pos (by linarith)]
  · have hf : ⌊q / (2 : ℚ) ^ e⌋ = m - 1 := by
      rw [Int.floor_eq_iff]
      push_cast
      exact ⟨by linarith, by linarith [not_le.mp hm]⟩
    rw [hf]
    push_cast
    rw [if_neg (by linarith), if_pos (by linarith)]
    ring

/-- A positive number half way between `(m - 1) * 2 ^ e` and `m * 2 ^ e` with `m` even rounds
to `m * 2 ^ e`. -/
theorem round53_of_tie_up {q r : ℚ} (e m : ℤ) (hr : r = (m : ℚ) * (2 : ℚ) ^ e)
    (hlo : (2 : ℚ) ^ (e + 52) ≤ q) (hhi : q < (2 : ℚ) ^ (e + 52 + 1))
    (ht : q / (2 : ℚ) ^ e = (m : ℚ) - 1 / 2) (hev : m % 2 = 0) :
    round53 q = r := by
  have hq : 0 < q := lt_of_lt_of_le (by positivity) hlo
  have hlog : Int.log 2 |q| - 52 = e := by
    rw [abs_of_pos hq, intLog_two_eq hlo hhi]
    omega
  unfold round53
  rw [if_neg (ne_of_gt hq)]
  simp only [hlog]
  rw [hr]
  congr 1
  have hf : ⌊q / (2 : ℚ) ^ e⌋ = m - 1 := by
    rw [Int.floor_eq_iff, ht]
    push_cast
    exact ⟨by linarith, by linarith⟩
  rw [hf, ht]
  push_cast
  rw [if_neg (by linarith), if_neg (by linarith), if_neg (by omega)]
  ring

theorem round53_pos {q : ℚ} (hq : 0 < q) : 0 < round53 q := by
  unfold round53
  rw [if_neg (ne_of_gt hq)]
  simp only [abs_of_pos hq]
  have hpow : (0 : ℚ) < (2 : ℚ) ^ (Int.log 2 q - 52) := by positivity
  have hx : (1 : ℚ) ≤ q / (2 : ℚ) ^ (Int.log 2 q - 52) := by
    rw [le_div_iff₀ hpow, one_mul]
    have h1 : (2 : ℚ) ^ (Int.log 2 q) ≤ q := by
      have := Int.zpow_log_le_self (b := 2) (r := q) (by norm_num) hq
      exact_mod_cast this
    have h2 : (2 : ℚ) ^ (Int.log 2 q - 52) ≤ (2 : ℚ) ^ (Int.log 2 q) :=
      zpow_le_zpow_right₀ (by norm_num) (by omega)
    linarith
  have hf : (1 : ℤ) ≤ ⌊q / (2 : ℚ) ^ (Int.log 2 q - 52)⌋ := by
    rw [Int.le_floor]
    exact_mod_cast hx
  apply mul_pos _ hpow
  have hfq : (1 : ℚ) ≤ (⌊q / (2 : ℚ) ^ (Int.log 2 q - 52)⌋ : ℚ) := by exact_mod_cast hf
  split_ifs <;> push_cast <;> linarith

theorem round53_nonneg {q : ℚ} (hq : 0 ≤ q) : 0 ≤ round53 q := by
  rcases eq_or_lt_of_le hq with h | h
  · rw [← h]
    simp [round53]
  · exact le_of_lt (round53_pos h)

theorem XFloat.zero_le_round {x : XFloat} (hx : XFloat.le (XFloat.zero false) x = true) :
    XFloat.le (XFloat.zero false) (XFloat.round x) = true := by
  cases x with
  | nan => exact hx
  | inf s => exact hx
  | zero s => exact hx
  | fin p =>
    have hp : 0 ≤ p := by
      simpa [XFloat.le, XFloat.lt] using hx
    have := round53_nonneg hp
    simp [XFloat.round, XFloat.le, XFloat.lt, this]

theorem XFloat.zero_le_div_fin {x : XFloat} {r : ℚ}
    (hx : XFloat.le (XFloat.zero false) x = true) (hr : 0 < r) :
    XFloat.le (XFloat.zero false) (XFloat.div x (XFloat.fin r)) = true := by
  have h0 : ¬ (r < 0) := not_lt.mpr (le_of_lt hr)
  cases x with
  | nan => simp [XFloat.le] at hx
  | inf s =>
    cases s with
    | true => simp [XFloat.le, XFloat.lt] at hx
    | false => simp [XFloat.div, XFloat.signBit, h0, XFloat.le, XFloat.lt]
  | zero s => cases s <;> simp [XFloat.div, XFloat.signBit, h0, XFloat.le, XFloat.lt]
  | fin p =>
    have hp : 0 ≤ p := by
      simpa [XFloat.le, XFloat.lt] using hx
    by_cases h : p / r = 0
    · simp only [XFloat.div, h, if_true]
      cases decide (p < 0) <;> simp [XFloat.le, XFloat.lt, h0]
    · have h1 : 0 ≤ p / r := div_nonneg hp (le_of_lt hr)
      simp only [XFloat.div, h, if_false]
      simp [XFloat.le, XFloat.lt, h1]

/-- The arithmetic with rounding agrees with IEEE-754 where no rounding is involved. -/
theorem roundedOps_compatible (lg : ℚ → ℚ) : IeeeCompatible (roundedOps lg) where
  lt_eq _ _ := rfl
  abs_eq _ := rfl
  zero_eq := by simp [roundedOps, XFloat.ofRat, XFloat.round]
  add_nonneg _ _ hx hy := XFloat.zero_le_round (XFloat.zero_le_add hx hy)
  div_nonneg x n hx hn := by
    have hq : (0 : ℚ) < n := by exact_mod_cast hn
    show XFloat.le (XFloat.zero false)
      (XFloat.round (XFloat.div x (XFloat.round (XFloat.ofRat (n : ℚ))))) = true
    rw [XFloat.ofRat_of_ne (ne_of_gt hq)]
    exact XFloat.zero_le_round (XFloat.zero_le_div_fin hx (round53_pos hq))

/-! ## Auxiliary facts: the outcomes of `GenerateLUT` -/

theorem GenerateLUT_error_aux {F : Type} (maxLen : Nat) (ops : FloatOps F) (cfg : Config F)
    (coeff : Coeff F) (hmax : cfg.LUTSize ≤ maxLen)
    (hgt : cfg.LUTSize > 2 ^ cfg.ADCResolution) :
    GenerateLUT maxLen ops cfg coeff
      = .error (.lutSizeError cfg.LUTSize (uintSub (uintShl 1 cfg.ADCResolution) 1)) := by
  have hpos : 0 < 2 ^ cfg.ADCResolution := Nat.pow_pos (by decide)
  rw [GenerateLUT_of_le maxLen ops cfg coeff hmax]
  by_cases hres : cfg.ADCResolution < 64
  · simp only [adcMax_of_lt hres, uintAdd_pred_pow hres]
    rw [if_pos hgt]
  · have hge : 64 ≤ cfg.ADCResolution := by omega
    have h0 : uintAdd (uintSub (uintShl 1 cfg.ADCResolution) 1) 1 = 0 := adcMax_succ_of_ge hge
    simp only [h0]
    rw [if_pos (by omega)]

/-- With a resolution of 64 bits or more the shift wraps, `adcMax + 1` is `0`, and every
nonempty table that can be allocated is refused by the size check. -/
theorem GenerateLUT_error_of_wrap {F : Type} (maxLen : Nat) (ops : FloatOps F) (cfg : Config F)
    (coeff : Coeff F) (hmax : cfg.LUTSize ≤ maxLen) (hn : 0 < cfg.LUTSize)
    (hge : 64 ≤ cfg.ADCResolution) :
    GenerateLUT maxLen ops cfg coeff = .error (.lutSizeError cfg.LUTSize (2 ^ 64 - 1)) := by
  rw [GenerateLUT_of_le maxLen ops cfg coeff hmax, adcMax_succ_of_ge hge, if_pos hn,
    adcMax_of_ge hge]

/-! ## C1: temperatures at the two ends of the table -/

/-- C1 (as amended): for every valid geometry (`LUTSize` a power of two, at most
`2 ^ ADCResolution`) whose resolution fits the 64-bit word and whose `LUTSize` is a length
`make` can allocate, and every coefficient triple, `GenerateLUT` succeeds, the last temperature
is `LowerLimitTemp`, and the first temperature is `UpperLimitTemp` as soon as the table has at
least two entries. -/
theorem GenerateLUT_boundary_temps {F : Type} (maxLen : Nat) (ops : FloatOps F) (cfg : Config F)
    (coeff : Coeff F) (hpow : ∃ k, cfg.LUTSize = 2 ^ k)
    (hle : cfg.LUTSize ≤ 2 ^ cfg.ADCResolution) (hres : cfg.ADCResolution < 64)
    (hmax : cfg.LUTSize ≤ maxLen) :
    ∃ t, GenerateLUT maxLen ops cfg coeff = .ok t ∧
      (2 ≤ cfg.LUTSize → t.tempValues[0]? = some cfg.UpperLimitTemp) ∧
      t.tempValues[cfg.LUTSize - 1]? = some cfg.LowerLimitTemp := by
  obtain ⟨k, hk⟩ := hpow
  have hn : 0 < cfg.LUTSize := by rw [hk]; exact Nat.pow_pos (by decide)
  refine ⟨_, GenerateLUT_eq_closedForm maxLen ops cfg coeff hmax hn hle hres, ?_, ?_⟩
  · intro h2
    rw [closedForm_temp ops cfg coeff 0 hn, if_neg (by omega), if_pos rfl]
  · rw [closedForm_temp ops cfg coeff (cfg.LUTSize - 1) (by omega), if_pos (by omega)]

/-- Witness for C1 (as amended): the configuration of `TestGenerateLUT`, 16 entries over a
12-bit ADC. -/
theorem GenerateLUT_boundary_temps_witness :
    ((∃ k, 16 = 2 ^ k) ∧ 16 ≤ 2 ^ 12 ∧ 12 < 64 ∧ 16 ≤ maxSliceLen64) ∧
    ∃ t, GenerateLUT maxSliceLen64 stubOps (testConfig stubOps 16 12)
        (testSteinhartCoeff stubOps) = .ok t ∧
      (2 ≤ 16 → t.tempValues[0]? = some (XFloat.ofRat 100)) ∧
      t.tempValues[16 - 1]? = some (XFloat.ofRat 0) :=
  ⟨⟨⟨4, by decide⟩, by decide, by decide, by decide⟩,
    GenerateLUT_boundary_temps maxSliceLen64 stubOps (testConfig stubOps 16 12)
      (testSteinhartCoeff stubOps) ⟨4, by decide⟩ (by decide) (by decide) (by decide)⟩

/-- C1 fails as stated at three valid geometries.  With `LUTSize = 1` (the power `2 ^ 0`) the
single entry is written twice and ends as `LowerLimitTemp = 0`, not `UpperLimitTemp = 100`.
With `ADCResolution = 64` and `LUTSize = 2` the shift `1 << 64` wraps to `0` and the call
returns the error.  With `LUTSize = 2 ^ 63` and `ADCResolution = 63` the first `make` fails:
the call ends in a panic and returns nothing. -/
theorem GenerateLUT_boundary_temps_counterexample :
    ((∃ k, 1 = 2 ^ k) ∧ 1 ≤ 2 ^ 12 ∧
      GenerateLUT maxSliceLen64 stubOps (testConfig stubOps 1 12)
        (testSteinhartCoeff stubOps)
        = .ok { tempValues := [XFloat.ofRat 0], resistanceValues := [XFloat.ofRat 0],
                adcValues := [0] } ∧
      XFloat.ofRat 0 ≠ XFloat.ofRat 100) ∧
    ((∃ k, 2 = 2 ^ k) ∧ 2 ≤ 2 ^ 64 ∧
      GenerateLUT maxSliceLen64 stubOps (testConfig stubOps 2 64)
        (testSteinhartCoeff stubOps)
        = .error (.lutSizeError 2 (2 ^ 64 - 1))) ∧
    ((∃ k, 2 ^ 63 = 2 ^ k) ∧ 2 ^ 63 ≤ 2 ^ 63 ∧
      GenerateLUT maxSliceLen64 stubOps (testConfig stubOps (2 ^ 63) 63)
        (testSteinhartCoeff stubOps)
        = .error .allocationFailure) := by
  refine ⟨⟨⟨0, by decide⟩, by decide, ?_, by decide⟩, ⟨⟨1, by decide⟩, by decide, ?_⟩,
    ⟨63, rfl⟩, Nat.le_refl _, ?_⟩
  · rw [GenerateLUT_eq_closedForm _ _ _ _ (by decide) (by decide) (by decide) (by decide)]
    rfl
  · exact GenerateLUT_error_of_wrap _ _ _ _ (by decide) (by decide) (by decide)
  · exact GenerateLUT_of_gt _ _ _ _ (by decide)

/-! ## C2: ADC codes up to the last index -/

/-- C2 (failing input): at the configuration of `TestGenerateLUT` (16 entries, 12-bit ADC) the
returned ADC codes are `0, 256, ..., 3584, 0`: the loop stops before the last index, whose code
stays at its initial `0`, so the codes are not increasing from index 14 to index 15. -/
theorem GenerateLUT_adc_codes_test_config :
    (GenerateLUT maxSliceLen64 stubOps (testConfig stubOps 16 12)
      (testSteinhartCoeff stubOps)).map (fun t => t.adcValues) = .ok
      [0, 256, 512, 768, 1024, 1280, 1536, 1792, 2048, 2304, 2560, 2816, 3072, 3328, 3584, 0] ∧
    ¬ (3584 < 0) := by
  refine ⟨?_, by decide⟩
  rw [GenerateLUT_eq_closedForm _ _ _ _ (by decide) (by decide) (by decide) (by decide)]
  rfl

/-! ## C3: a table larger than the ADC range -/

/-- C4 (as amended): `GenerateLUT` does not test whether `LUTSize` is a power of two; the test
is made by `parseFlags`.  For every `LUTSize` that is not a power of two and is a length `make`
can allocate, `GenerateLUT` returns the error and no table when `LUTSize` exceeds
`2 ^ ADCResolution`, and it returns a table of `LUTSize` entries and no error when
`1 ≤ LUTSize ≤ 2 ^ ADCResolution` and the resolution fits the 64-bit word; `parseFlags` stops
the program when `LUTSize` is a nonzero `uint`. -/
theorem GenerateLUT_of_not_power_of_two {F : Type} (maxLen : Nat) (ops : FloatOps F)
    (cfg : Config F) (coeff : Coeff F) (hnp : ¬ ∃ k, cfg.LUTSize = 2 ^ k) :
    (cfg.LUTSize ≤ maxLen → cfg.LUTSize > 2 ^ cfg.ADCResolution →
      ∃ adcMax,
        GenerateLUT maxLen ops cfg coeff = .error (.lutSizeError cfg.LUTSize adcMax)) ∧
    (cfg.LUTSize ≤ maxLen → 1 ≤ cfg.LUTSize → cfg.LUTSize ≤ 2 ^ cfg.ADCResolution →
      cfg.ADCResolution < 64 →
      ∃ t, GenerateLUT maxLen ops cfg coeff = .ok t ∧ t.tempValues.length = cfg.LUTSize ∧
        t.resistanceValues.length = cfg.LUTSize ∧ t.adcValues.length = cfg.LUTSize) ∧
    (1 ≤ cfg.LUTSize → cfg.LUTSize < 2 ^ 64 →
      parseFlagsRejects cfg.LUTSize cfg.ADCResolution = true) :=
  ⟨fun hmax hgt => ⟨_, GenerateLUT_error_aux maxLen ops cfg coeff hmax hgt⟩,
    fun hmax hn hle hres =>
      ⟨_, GenerateLUT_eq_closedForm maxLen ops cfg coeff hmax hn hle hres,
        closedForm_length_temp ops cfg coeff, closedForm_length_resistance ops cfg coeff,
        closedForm_length_adc ops cfg coeff⟩,
    fun hn hlt => parseFlagsRejects_of_not_power_of_two _ _ hn hlt hnp⟩

theorem three_not_power_of_two : ¬ ∃ k, 3 = 2 ^ k := by
  rintro ⟨k, hk⟩
  cases k with
  | zero => simp at hk
  | succ k => rw [Nat.pow_succ] at hk; omega

theorem five_thousand_and_one_not_power_of_two : ¬ ∃ k, 5001 = 2 ^ k := by
  rintro ⟨k, hk⟩
  cases k with
  | zero => simp at hk
  | succ k => rw [Nat.pow_succ] at hk; omega

theorem two_pow_62_succ_not_power_of_two : ¬ ∃ k, 2 ^ 62 + 1 = 2 ^ k := by
  rintro ⟨k, hk⟩
  cases k with
  | zero => simp at hk
  | succ k => rw [Nat.pow_succ] at hk; omega

/-- Witness for C4 (as amended): three entries over a 12-bit ADC give a table, 5001 entries
over a 12-bit ADC give the error, and `parseFlags` rejects the size 3. -/
theorem GenerateLUT_of_not_power_of_two_witness :
    ((¬ ∃ k, 3 = 2 ^ k) ∧ 3 ≤ maxSliceLen64 ∧ 1 ≤ 3 ∧ 3 ≤ 2 ^ 12 ∧ 12 < 64 ∧ 3 < 2 ^ 64) ∧
    (∃ t, GenerateLUT maxSliceLen64 stubOps (testConfig stubOps 3 12)
        (testSteinhartCoeff stubOps) = .ok t ∧
      t.tempValues.length = 3 ∧ t.resistanceValues.length = 3 ∧ t.adcValues.length = 3) ∧
    parseFlagsRejects 3 12 = true ∧
    ((¬ ∃ k, 5001 = 2 ^ k) ∧ 5001 ≤ maxSliceLen64 ∧ 5001 > 2 ^ 12) ∧
    (∃ adcMax, GenerateLUT maxSliceLen64 stubOps (testConfig stubOps 5001 12)
        (testSteinhartCoeff stubOps) = .error (.lutSizeError 5001 adcMax)) :=
  ⟨⟨three_not_power_of_two, by decide, by decide, by decide, by decide, by decide⟩,
    (GenerateLUT_of_not_power_of_two maxSliceLen64 stubOps (testConfig stubOps 3 12)
      (testSteinhartCoeff stubOps) three_not_power_of_two).2.1 (by decide) (by decide)
      (by decide) (by decide),
    (GenerateLUT_of_not_power_of_two maxSliceLen64 stubOps (testConfig stubOps 3 12)
      (testSteinhartCoeff stubOps) three_not_power_of_two).2.2 (by decide) (by decide),
    ⟨five_thousand_and_one_not_power_of_two, by decide, by decide⟩,
    (GenerateLUT_of_not_power_of_two maxSliceLen64 stubOps (testConfig stubOps 5001 12)
      (testSteinhartCoeff stubOps) five_thousand_and_one_not_power_of_two).1 (by decide)
      (by decide)⟩

/-- C4 fails as stated at two sizes that are not powers of two.  At `LUTSize = 3`,
`ADCResolution = 12` the call returns no error; it returns a table whose ADC codes are
`0, 1365, 0`.  At `LUTSize = 2 ^ 62 + 1`, `ADCResolution = 12` the first `make` fails and the
call ends in a panic, which is neither the error value nor a table. -/
theorem GenerateLUT_not_power_of_two_counterexample :
    ((¬ ∃ k, 3 = 2 ^ k) ∧
      (GenerateLUT maxSliceLen64 stubOps (testConfig stubOps 3 12)
        (testSteinhartCoeff stubOps)).map (fun t => t.adcValues) = .ok [0, 1365, 0]) ∧
    ((¬ ∃ k, 2 ^ 62 + 1 = 2 ^ k) ∧
      GenerateLUT maxSliceLen64 stubOps (testConfig stubOps (2 ^ 62 + 1) 12)
        (testSteinhartCoeff stubOps) = .error .allocationFailure) := by
  refine ⟨⟨three_not_power_of_two, ?_⟩, two_pow_62_succ_not_power_of_two,
    GenerateLUT_of_gt _ _ _ _ (by decide)⟩
  rw [GenerateLUT_eq_closedForm _ _ _ _ (by decide) (by decide) (by decide) (by decide)]
  rfl

/-! ## C5: resistances at the two ends of the table -/

/-- C5 (failing input): at the configuration of `TestGenerateLUT` (16 entries, 12-bit ADC) the
resistance at index 0 is `0` and the resistance at the last index 15 is `0` as well, the value
the slice was created with, not `ResistanceMax`. -/
theorem GenerateLUT_last_resistance_test_config :
    ∃ t, GenerateLUT maxSliceLen64 stubOps (testConfig stubOps 16 12)
        (testSteinhartCoeff stubOps) = .ok t ∧
      t.resistanceValues[0]? = some (XFloat.zero false) ∧
      t.resistanceValues[15]? = some (XFloat.zero false) ∧
      XFloat.zero false ≠ ResistanceMax stubOps := by
  refine ⟨_, GenerateLUT_eq_closedForm _ _ _ _ (by decide) (by decide) (by decide)
    (by decide), ?_, ?_, ?_⟩
  · rw [closedForm_resistance _ _ _ 0 (by decide)]; rfl
  · rw [closedForm_resistance _ _ _ 15 (by decide)]; rfl
  · decide

/-! ## C6: voltage-divider inversion -/

theorem resistanceOf_testConfig_3840 (lg : ℚ → ℚ) :
    resistanceOf (ieeeOps lg) (testConfig (ieeeOps lg) 32 12) 3840 = XFloat.fin (-300000) := by
  have e1 : XFloat.ofRat (33 / 10) = XFloat.fin (33 / 10) := XFloat.ofRat_of_ne (by norm_num)
  have e2 : XFloat.ofRat (3840 : ℕ) = XFloat.fin 3840 := by
    rw [XFloat.ofRat_of_ne (by norm_num)]; norm_num
  have e3 : XFloat.ofRat ((2 ^ 12 : ℕ) : ℚ) = XFloat.fin 4096 := by
    rw [XFloat.ofRat_of_ne (by norm_num)]; norm_num
  have e4 : XFloat.ofRat 10 = XFloat.fin 10 := XFloat.ofRat_of_ne (by norm_num)
  have e5 : XFloat.ofRat 100 = XFloat.fin 100 := XFloat.ofRat_of_ne (by norm_num)
  have e6 : XFloat.ofRat 1000 = XFloat.fin 1000 := XFloat.ofRat_of_ne (by norm_num)
  have e7 : XFloat.ofRat 1 = XFloat.fin 1 := XFloat.ofRat_of_ne (by norm_num)
  have h12 : (12 : ℕ) < 64 := by decide
  unfold resistanceOf getResistanceFromADCValue
  simp only [testConfig, adcMax_of_lt h12, uintAdd_pred_pow h12]
  rw [if_neg (by decide), if_neg (by decide)]
  simp only [ieeeOps, e1, e2, e3, e4, e5, e6, e7]
  rw [XFloat.mul_fin_fin (by norm_num) (by norm_num),
    XFloat.mul_fin_fin (by norm_num) (by norm_num),
    XFloat.mul_fin_fin (by norm_num) (by norm_num),
    XFloat.div_fin_fin (by norm_num) (by norm_num),
    XFloat.sub_fin_fin (by norm_num),
    XFloat.div_fin_fin (by norm_num) (by norm_num),
    XFloat.mul_fin_fin (by norm_num) (by norm_num),
    XFloat.div_fin_fin (by norm_num) (by norm_num),
    XFloat.div_fin_fin (by norm_num) (by norm_num),
    XFloat.sub_fin_fin (by norm_num),
    XFloat.div_fin_fin (by norm_num) (by norm_num)]
  rw [if_neg (by simp [XFloat.ofRat, XFloat.eq])]
  norm_num

/-- C7 (failing input): the configuration of `TestGenerateLUT` with 32 entries instead of 16
(12-bit ADC, 3.3 V, 10 kΩ in series, 100 kΩ in parallel, limits 0 °C and 100 °C).  At index 30
the ADC code is 3840, the inverted resistance is -300000 Ω, its logarithm is NaN, and the
stored temperature is NaN: both comparisons of `clampTemperature` are false on NaN, and NaN is
neither above the lower limit nor below the upper limit. -/
theorem GenerateLUT_temperature_nan (lg : ℚ → ℚ) :
    ((∃ k, 32 = 2 ^ k) ∧ 32 ≤ 2 ^ 12 ∧ XFloat.le (XFloat.ofRat 0) (XFloat.ofRat 100) = true) ∧
    ∃ t, GenerateLUT maxSliceLen64 (ieeeOps lg) (testConfig (ieeeOps lg) 32 12)
        (testSteinhartCoeff (ieeeOps lg)) = .ok t ∧
      t.adcValues[30]? = some 3840 ∧
      t.resistanceValues[30]? = some (XFloat.fin (-300000)) ∧
      t.tempValues[30]? = some XFloat.nan ∧
      XFloat.le (XFloat.ofRat 0) XFloat.nan = false ∧
      XFloat.le XFloat.nan (XFloat.ofRat 100) = false := by
  have h0 : 0 < (testConfig (ieeeOps lg) 32 12).LUTSize := by
    show 0 < 32
    decide
  have hm : (testConfig (ieeeOps lg) 32 12).LUTSize ≤ maxSliceLen64 := by
    show 32 ≤ maxSliceLen64
    decide
  have h1 : (testConfig (ieeeOps lg) 32 12).LUTSize
      ≤ 2 ^ (testConfig (ieeeOps lg) 32 12).ADCResolution := by
    show 32 ≤ 2 ^ 12
    decide
  have h2 : (testConfig (ieeeOps lg) 32 12).ADCResolution < 64 := by
    show 12 < 64
    decide
  have h3 : 30 < (testConfig (ieeeOps lg) 32 12).LUTSize := by
    show 30 < 32
    decide
  have hstep : 30 * (2 ^ (testConfig (ieeeOps lg) 32 12).ADCResolution
      / (testConfig (ieeeOps lg) 32 12).LUTSize) = 3840 := by
    show 30 * (2 ^ 12 / 32) = 3840
    decide
  have hint : 1 ≤ 30 ∧ 30 + 1 < (testConfig (ieeeOps lg) 32 12).LUTSize := by
    show 1 ≤ 30 ∧ 30 + 1 < 32
    decide
  have hlast : ¬ (30 + 1 = (testConfig (ieeeOps lg) 32 12).LUTSize) := by
    show ¬ (30 + 1 = 32)
    decide
  refine ⟨⟨⟨5, by decide⟩, by decide, by decide⟩, _,
    GenerateLUT_eq_closedForm _ _ _ _ hm h0 h1 h2, ?_, ?_, ?_, rfl, rfl⟩
  · rw [closedForm_adc _ _ _ 30 h3, if_pos hint, hstep]
  · rw [closedForm_resistance _ _ _ 30 h3, if_pos hint, hstep, resistanceOf_testConfig_3840]
  · rw [closedForm_temp _ _ _ 30 h3, if_neg hlast, if_neg (by decide), hstep]
    unfold temperatureOf
    rw [resistanceOf_testConfig_3840]
    simp only [SteinhartCalculation, clampTemperature, FloatOps.gt, ieeeOps,
      XFloat.log_fin_of_neg lg (show (-300000 : ℚ) < 0 by norm_num), XFloat.mul_nan,
      XFloat.add_nan, XFloat.div_nan, XFloat.nan_sub, XFloat.nan_lt, XFloat.lt_nan,
      Bool.false_eq_true, if_false]

/-! ## C8 and C9: ADC codes at the inner indices -/

/-- C8 (as amended): for every valid geometry (`LUTSize` a power of two, at most
`2 ^ ADCResolution`) whose resolution fits the 64-bit word and whose `LUTSize` is a length
`make` can allocate, the step `2 ^ ADCResolution / LUTSize` divides exactly, `GenerateLUT`
returns a table, and the table has `adcs[i] = i * stepSize` at every index `i` with
`1 ≤ i ≤ LUTSize - 2`. -/
theorem GenerateLUT_inner_adc_codes {F : Type} (maxLen : Nat) (ops : FloatOps F)
    (cfg : Config F) (coeff : Coeff F) (hpow : ∃ k, cfg.LUTSize = 2 ^ k)
    (hle : cfg.LUTSize ≤ 2 ^ cfg.ADCResolution) (hres : cfg.ADCResolution < 64)
    (hmax : cfg.LUTSize ≤ maxLen) :
    (2 ^ cfg.ADCResolution / cfg.LUTSize) * cfg.LUTSize = 2 ^ cfg.ADCResolution ∧
    ∃ t, GenerateLUT maxLen ops cfg coeff = .ok t ∧
      ∀ i, 1 ≤ i → i ≤ cfg.LUTSize - 2 →
        t.adcValues[i]? = some (i * (2 ^ cfg.ADCResolution / cfg.LUTSize)) := by
  obtain ⟨k, hk⟩ := hpow
  have hn : 0 < cfg.LUTSize := by rw [hk]; exact Nat.pow_pos (by decide)
  refine ⟨?_, _, GenerateLUT_eq_closedForm maxLen ops cfg coeff hmax hn hle hres, ?_⟩
  · have hkle : k ≤ cfg.ADCResolution := by
      rw [hk] at hle
      exact (Nat.pow_le_pow_iff_right (by decide)).mp hle
    rw [hk]
    exact Nat.div_mul_cancel (Nat.pow_dvd_pow 2 hkle)
  · intro i h1 h2
    rw [closedForm_adc ops cfg coeff i (by omega), if_pos ⟨h1, by omega⟩]

/-- Witness for C8 (as amended): 16 entries over a 12-bit ADC, step 256. -/
theorem GenerateLUT_inner_adc_codes_witness :
    ((∃ k, 16 = 2 ^ k) ∧ 16 ≤ 2 ^ 12 ∧ 12 < 64 ∧ 16 ≤ maxSliceLen64) ∧
    ((2 ^ 12 / 16) * 16 = 2 ^ 12 ∧
    ∃ t, GenerateLUT maxSliceLen64 stubOps (testConfig stubOps 16 12)
        (testSteinhartCoeff stubOps) = .ok t ∧
      ∀ i, 1 ≤ i → i ≤ 16 - 2 → t.adcValues[i]? = some (i * (2 ^ 12 / 16))) :=
  ⟨⟨⟨4, by decide⟩, by decide, by decide, by decide⟩,
    GenerateLUT_inner_adc_codes maxSliceLen64 stubOps (testConfig stubOps 16 12)
      (testSteinhartCoeff stubOps) ⟨4, by decide⟩ (by decide) (by decide) (by decide)⟩

/-- C8 fails as stated at two valid geometries, where `GenerateLUT` produces no ADC codes.
With `LUTSize = 4`, `ADCResolution = 64` the shift `1 << 64` wraps to `0` and the call returns
the error.  With `LUTSize = 2 ^ 62`, `ADCResolution = 62` the first `make` fails and the call
ends in a panic. -/
theorem GenerateLUT_inner_adc_codes_counterexample :
    ((∃ k, 4 = 2 ^ k) ∧ 4 ≤ 2 ^ 64 ∧
      GenerateLUT maxSliceLen64 stubOps (testConfig stubOps 4 64)
        (testSteinhartCoeff stubOps) = .error (.lutSizeError 4 (2 ^ 64 - 1))) ∧
    ((∃ k, 2 ^ 62 = 2 ^ k) ∧ 2 ^ 62 ≤ 2 ^ 62 ∧
      GenerateLUT maxSliceLen64 stubOps (testConfig stubOps (2 ^ 62) 62)
        (testSteinhartCoeff stubOps) = .error .allocationFailure) :=
  ⟨⟨⟨2, by decide⟩, by decide,
      GenerateLUT_error_of_wrap _ _ _ _ (by decide) (by decide) (by decide)⟩,
    ⟨62, rfl⟩, Nat.le_refl _, GenerateLUT_of_gt _ _ _ _ (by decide)⟩

/-- C9 (as amended): for every valid geometry whose resolution fits the 64-bit word and whose
`LUTSize` is a length `make` can allocate, and every coefficient triple, `GenerateLUT` returns
a table, and the table has `adcs[i - 1] < adcs[i]` at every index `i` with
`1 ≤ i ≤ LUTSize - 2`. -/
theorem GenerateLUT_inner_adc_codes_increasing {F : Type} (maxLen : Nat) (ops : FloatOps F)
    (cfg : Config F) (coeff : Coeff F) (hpow : ∃ k, cfg.LUTSize = 2 ^ k)
    (hle : cfg.LUTSize ≤ 2 ^ cfg.ADCResolution) (hres : cfg.ADCResolution < 64)
    (hmax : cfg.LUTSize ≤ maxLen) :
    ∃ t, GenerateLUT maxLen ops cfg coeff = .ok t ∧
      ∀ i, 1 ≤ i → i ≤ cfg.LUTSize - 2 →
        ∃ a b, t.adcValues[i - 1]? = some a ∧ t.adcValues[i]? = some b ∧ a < b := by
  obtain ⟨k, hk⟩ := hpow
  have hn : 0 < cfg.LUTSize := by rw [hk]; exact Nat.pow_pos (by decide)
  have hstep : 0 < 2 ^ cfg.ADCResolution / cfg.LUTSize := Nat.div_pos hle hn
  refine ⟨_, GenerateLUT_eq_closedForm maxLen ops cfg coeff hmax hn hle hres, ?_⟩
  intro i h1 h2
  refine ⟨_, _, closedForm_adc ops cfg coeff (i - 1) (by omega),
    closedForm_adc ops cfg coeff i (by omega), ?_⟩
  have hb : (if 1 ≤ i ∧ i + 1 < cfg.LUTSize then i * (2 ^ cfg.ADCResolution / cfg.LUTSize)
      else 0) = i * (2 ^ cfg.ADCResolution / cfg.LUTSize) := if_pos ⟨h1, by omega⟩
  rw [hb]
  by_cases h3 : 1 ≤ i - 1 ∧ i - 1 + 1 < cfg.LUTSize
  · rw [if_pos h3]
    exact Nat.mul_lt_mul_of_pos_right (by omega) hstep
  · rw [if_neg h3]
    exact Nat.mul_pos (by omega) hstep

/-- Witness for C9 (as amended): 16 entries over a 12-bit ADC, the codes at the indices 1 to
14. -/
theorem GenerateLUT_inner_adc_codes_increasing_witness :
    ((∃ k, 16 = 2 ^ k) ∧ 16 ≤ 2 ^ 12 ∧ 12 < 64 ∧ 16 ≤ maxSliceLen64) ∧
    ∃ t, GenerateLUT maxSliceLen64 stubOps (testConfig stubOps 16 12)
        (testSteinhartCoeff stubOps) = .ok t ∧
      ∀ i, 1 ≤ i → i ≤ 16 - 2 →
        ∃ a b, t.adcValues[i - 1]? = some a ∧ t.adcValues[i]? = some b ∧ a < b :=
  ⟨⟨⟨4, by decide⟩, by decide, by decide, by decide⟩,
    GenerateLUT_inner_adc_codes_increasing maxSliceLen64 stubOps (testConfig stubOps 16 12)
      (testSteinhartCoeff stubOps) ⟨4, by decide⟩ (by decide) (by decide) (by decide)⟩

/-- C9 fails as stated at two valid geometries, where `GenerateLUT` returns no ADC codes.
With `LUTSize = 8`, `ADCResolution = 64` the shift `1 << 64` wraps to `0` and the call returns
the error.  With `LUTSize = 2 ^ 61`, `ADCResolution = 61` the first `make` fails and the call
ends in a panic. -/
theorem GenerateLUT_inner_adc_codes_increasing_counterexample :
    ((∃ k, 8 = 2 ^ k) ∧ 8 ≤ 2 ^ 64 ∧
      GenerateLUT maxSliceLen64 stubOps (testConfig stubOps 8 64)
        (testSteinhartCoeff stubOps) = .error (.lutSizeError 8 (2 ^ 64 - 1))) ∧
    ((∃ k, 2 ^ 61 = 2 ^ k) ∧ 2 ^ 61 ≤ 2 ^ 61 ∧
      GenerateLUT maxSliceLen64 stubOps (testConfig stubOps (2 ^ 61) 61)
        (testSteinhartCoeff stubOps) = .error .allocationFailure) :=
  ⟨⟨⟨3, by decide⟩, by decide,
      GenerateLUT_error_of_wrap _ _ _ _ (by decide) (by decide) (by decide)⟩,
    ⟨61, rfl⟩, Nat.le_refl _, GenerateLUT_of_gt _ _ _ _ (by decide)⟩

/-! ## C10: the model evaluator -/

theorem XFloat.lt_false_of_lt_of_le {t lo hi : XFloat} (h1 : XFloat.lt t lo = true)
    (h2 : XFloat.le lo hi = true) : XFloat.lt hi t = false := by
  cases t <;> cases lo <;> cases hi <;>
    simp_all [XFloat.lt, XFloat.le] <;> linarith

/-- C15: for every temperature `t` and limits `lo ≤ hi`, over exact arithmetic
`clampTemperature t hi lo` equals `max lo (min t hi)`: it is `hi` when `t > hi`, `lo` when
`t < lo`, and `t` when `lo ≤ t ≤ hi`.  The three cases also hold for `float64` values with
their special values, the comparisons being those of IEEE-754. -/
theorem clampTemperature_eq_max_min {F : Type} [LinearOrderedField F] (lg : F → F)
    (t hi lo : F) (h : lo ≤ hi) :
    clampTemperature (exactOps lg) t hi lo = max lo (min t hi) ∧
    (hi < t → clampTemperature (exactOps lg) t hi lo = hi) ∧
    (t < lo → clampTemperature (exactOps lg) t hi lo = lo) ∧
    (lo ≤ t → t ≤ hi → clampTemperature (exactOps lg) t hi lo = t) ∧
    ∀ (lg' : ℚ → ℚ) (x u l : XFloat), XFloat.le l u = true →
      (XFloat.lt u x = true → clampTemperature (ieeeOps lg') x u l = u) ∧
      (XFloat.lt x l = true → clampTemperature (ieeeOps lg') x u l = l) ∧
      (XFloat.le l x = true → XFloat.le x u = true →
        clampTemperature (ieeeOps lg') x u l = x) := by
  refine ⟨?_, ?_, ?_, ?_, ?_⟩
  · simp only [clampTemperature, FloatOps.gt, exactOps, decide_eq_true_eq]
    by_cases h1 : hi < t
    · rw [if_pos h1, min_eq_right (le_of_lt h1), max_eq_right h]
    · rw [if_neg h1, min_eq_left (not_lt.mp h1)]
      by_cases h2 : t < lo
      · rw [if_pos h2, max_eq_left (le_of_lt h2)]
      · rw [if_neg h2, max_eq_right (not_lt.mp h2)]
  · intro h1
    simp only [clampTemperature, FloatOps.gt, exactOps, decide_eq_true_eq]
    rw [if_pos h1]
  · intro h2
    have h1 : ¬ hi < t := not_lt.mpr (le_trans (le_of_lt h2) h)
    simp only [clampTemperature, FloatOps.gt, exactOps, decide_eq_true_eq]
    rw [if_neg h1, if_pos h2]
  · intro h1 h2
    simp only [clampTemperature, FloatOps.gt, exactOps, decide_eq_true_eq]
    rw [if_neg (not_lt.mpr h2), if_neg (not_lt.mpr h1)]
  · intro lg' x u l hlu
    refine ⟨?_, ?_, ?_⟩
    · intro h1
      simp only [clampTemperature, FloatOps.gt, ieeeOps]
      rw [if_pos h1]
    · intro h2
      have h1 : XFloat.lt u x = false := XFloat.lt_false_of_lt_of_le h2 hlu
      simp only [clampTemperature, FloatOps.gt, ieeeOps, h1, h2, Bool.false_eq_true, if_false,
        if_true]
    · intro h1 h2
      have h3 : XFloat.lt u x = false := by
        cases x <;> cases u <;> simp_all [XFloat.le]
      have h4 : XFloat.lt x l = false := by
        cases x <;> cases l <;> simp_all [XFloat.le]
      simp only [clampTemperature, FloatOps.gt, ieeeOps, h3, h4, Bool.false_eq_true, if_false]

/-- Witness for C15: the first row of `TestClampTemperature`, 25 between 20 and 30. -/
theorem clampTemperature_eq_max_min_witness :
    (20 : ℚ) ≤ 30 ∧ clampTemperature (exactOps stubLog) (25 : ℚ) 30 20 = max 20 (min 25 30) :=
  ⟨by norm_num, (clampTemperature_eq_max_min stubLog (25 : ℚ) 30 20 (by norm_num)).1⟩

/-! ## C16: the three slices of a returned table -/

/-- C16 (as amended): for every configuration with `1 ≤ LUTSize ≤ 2 ^ ADCResolution` whose
resolution fits the 64-bit word and whose `LUTSize` is a length `make` can allocate, and every
coefficient triple, `GenerateLUT` returns normally (no failed allocation, no division by zero,
no index out of range), with no error and with three slices of length `LUTSize` each. -/
theorem GenerateLUT_returns_three_slices {F : Type} (maxLen : Nat) (ops : FloatOps F)
    (cfg : Config F) (coeff : Coeff F) (hn : 1 ≤ cfg.LUTSize)
    (hle : cfg.LUTSize ≤ 2 ^ cfg.ADCResolution) (hres : cfg.ADCResolution < 64)
    (hmax : cfg.LUTSize ≤ maxLen) :
    ∃ t, GenerateLUT maxLen ops cfg coeff = .ok t ∧ t.tempValues.length = cfg.LUTSize ∧
      t.resistanceValues.length = cfg.LUTSize ∧ t.adcValues.length = cfg.LUTSize :=
  ⟨_, GenerateLUT_eq_closedForm maxLen ops cfg coeff hmax hn hle hres,
    closedForm_length_temp ops cfg coeff, closedForm_length_resistance ops cfg coeff,
    closedForm_length_adc ops cfg coeff⟩

/-- Witness for C16 (as amended): the configuration of `TestGenerateLUT`, 16 entries over a
12-bit ADC. -/
theorem GenerateLUT_returns_three_slices_witness :
    (1 ≤ 16 ∧ 16 ≤ 2 ^ 12 ∧ 12 < 64 ∧ 16 ≤ maxSliceLen64) ∧
    ∃ t, GenerateLUT maxSliceLen64 stubOps (testConfig stubOps 16 12)
        (testSteinhartCoeff stubOps) = .ok t ∧
      t.tempValues.length = 16 ∧ t.resistanceValues.length = 16 ∧ t.adcValues.length = 16 :=
  ⟨⟨by decide, by decide, by decide, by decide⟩,
    GenerateLUT_returns_three_slices maxSliceLen64 stubOps (testConfig stubOps 16 12)
      (testSteinhartCoeff stubOps) (by decide) (by decide) (by decide) (by decide)⟩

/-- C16 fails as stated at two configurations.  At `LUTSize = 1`, `ADCResolution = 64`:
`1 ≤ 1 ≤ 2 ^ 64`, yet the shift `1 << 64` is `0`, `adcMax + 1` wraps to `0`, and the call
returns the error.  At `LUTSize = 2 ^ 60`, `ADCResolution = 63`: `1 ≤ 2 ^ 60 ≤ 2 ^ 63`, yet the
first `make` fails and the call ends in a panic. -/
theorem GenerateLUT_returns_three_slices_counterexample :
    ((1 ≤ 1 ∧ 1 ≤ 2 ^ 64) ∧
      GenerateLUT maxSliceLen64 stubOps (testConfig stubOps 1 64) (testSteinhartCoeff stubOps)
        = .error (.lutSizeError 1 (2 ^ 64 - 1))) ∧
    ((1 ≤ 2 ^ 60 ∧ 2 ^ 60 ≤ 2 ^ 63) ∧
      GenerateLUT maxSliceLen64 stubOps (testConfig stubOps (2 ^ 60) 63)
        (testSteinhartCoeff stubOps) = .error .allocationFailure) :=
  ⟨⟨⟨by decide, by decide⟩,
      GenerateLUT_error_of_wrap _ _ _ _ (by decide) (by decide) (by decide)⟩,
    ⟨by decide, by decide⟩, GenerateLUT_of_gt _ _ _ _ (by decide)⟩

/-! ## C17: the two rails of the ADC -/

/-- C17: for every `adcBits ≥ 1` whose full-scale code `2 ^ adcBits - 1` is a `uint`, and every
`vRef`, `rSeries`, `rParallel`, `getResistanceFromADCValue` returns the literal `0` for the
code `0` and `ResistanceMax` itself for the full-scale code; neither value depends on the
three electrical arguments. -/
theorem getResistanceFromADCValue_rails {F : Type} (ops : FloatOps F) (vRef rSeries rParallel : F)
    (adcBits : Nat) (h1 : 1 ≤ adcBits) (hcode : 2 ^ adcBits - 1 < 2 ^ 64) :
    getResistanceFromADCValue ops vRef 0 adcBits rSeries rParallel = ops.ofRat 0 ∧
    getResistanceFromADCValue ops vRef (2 ^ adcBits - 1) adcBits rSeries rParallel
      = ResistanceMax ops := by
  have h2 : 2 ≤ 2 ^ adcBits := by
    calc 2 = 2 ^ 1 := rfl
      _ ≤ 2 ^ adcBits := Nat.pow_le_pow_right (by decide) h1
  have hle : adcBits ≤ 64 := by
    by_contra hgt
    have h3 : 2 ^ 65 ≤ 2 ^ adcBits := Nat.pow_le_pow_right (by decide) (by omega)
    omega
  have hmax : uintSub (uintShl 1 adcBits) 1 = 2 ^ adcBits - 1 := by
    by_cases hlt : adcBits < 64
    · exact adcMax_of_lt hlt
    · have h64 : adcBits = 64 := by omega
      rw [h64]
      exact adcMax_of_ge (Nat.le_refl 64)
  constructor
  · simp [getResistanceFromADCValue]
  · unfold getResistanceFromADCValue
    simp only [hmax]
    rw [if_neg (by omega)]
    simp only [if_true]

/-- Witness for C17: the two calls that close `TestGetResistanceFromADCValue`, 3.3 V and 10 kΩ
in series over a 12-bit ADC, codes 0 and 4095; the second value is not below `ResistanceMax`. -/
theorem getResistanceFromADCValue_rails_witness :
    (1 ≤ 12 ∧ 2 ^ 12 - 1 < 2 ^ 64) ∧
    (getResistanceFromADCValue stubOps (XFloat.ofRat (33 / 10)) 0 12 (XFloat.ofRat 10000)
      (XFloat.ofRat 0) = stubOps.ofRat 0 ∧
    getResistanceFromADCValue stubOps (XFloat.ofRat (33 / 10)) (2 ^ 12 - 1) 12
      (XFloat.ofRat 10000) (XFloat.ofRat 0) = ResistanceMax stubOps) ∧
    XFloat.le (ResistanceMax stubOps) (ResistanceMax stubOps) = true :=
  ⟨⟨by decide, by decide⟩,
    getResistanceFromADCValue_rails stubOps (XFloat.ofRat (33 / 10)) (XFloat.ofRat 10000)
      (XFloat.ofRat 0) 12 (by decide) (by decide),
    by decide⟩

/-! ## C12: the rows of the deviation table -/

theorem foldl_deviationStep_fullTable {F : Type} (ops : FloatOps F) (coeff : Coeff F)
    (ps : List (ThermistorPoint F)) (s : DeviationState F) :
    (ps.foldl (deviationStep ops coeff) s).fullTable
      = s.fullTable ++ ps.map (deviationRow ops coeff) := by
  induction ps generalizing s with
  | nil => simp
  | cons p ps ih => simp [ih, deviationStep]

/-- C12: for every list of points and every coefficient triple, the table returned by
`CheckDeviation` has one row per point, in input order, and the row of the point `p` has
`Resistance = p.Resistance`, `TemperatureCSV = p.Temp`,
`TemperatureCalc = SteinhartCalculation(p.Resistance, coeff) - 273.15` and
`Deviation = TemperatureCSV - TemperatureCalc`. -/
theorem CheckDeviation_rows {F : Type} (ops : FloatOps F) (points : List (ThermistorPoint F))
    (coeff : Coeff F) :
    (CheckDeviation ops points coeff).1 = points.map (fun p =>
      { Resistance := p.Resistance
        TemperatureCSV := p.Temp
        TemperatureCalc :=
          ops.sub (SteinhartCalculation ops p.Resistance coeff) (ops.ofRat (27315 / 100))
        Deviation := ops.sub p.Temp
          (ops.sub (SteinhartCalculation ops p.Resistance coeff) (ops.ofRat (27315 / 100))) }) ∧
    (CheckDeviation ops points coeff).1.length = points.length ∧
    ∀ row ∈ (CheckDeviation ops points coeff).1,
      row.Deviation = ops.sub row.TemperatureCSV row.TemperatureCalc := by
  have h : (CheckDeviation ops points coeff).1 = points.map (deviationRow ops coeff) := by
    simp [CheckDeviation, foldl_deviationStep_fullTable]
  refine ⟨?_, ?_, ?_⟩
  · rw [h]; rfl
  · rw [h, List.length_map]
  · intro row hrow
    rw [h, List.mem_map] at hrow
    obtain ⟨p, _, rfl⟩ := hrow
    rfl

/-! ## C13 and C19: the two aggregates of the deviation table -/

theorem exactOps_gt {F : Type} [LinearOrderedField F] (lg : F → F) (x y : F) :
    (exactOps lg).gt x y = decide (y < x) := rfl

theorem exactOps_abs {F : Type} [LinearOrderedField F] (lg : F → F) (x : F) :
    (exactOps lg).abs x = |x| := rfl

theorem exactOps_add {F : Type} [LinearOrderedField F] (lg : F → F) (x y : F) :
    (exactOps lg).add x y = x + y := rfl

theorem exactOps_div {F : Type} [LinearOrderedField F] (lg : F → F) (x y : F) :
    (exactOps lg).div x y = x / y := rfl

theorem exactOps_ofRat {F : Type} [LinearOrderedField F] (lg : F → F) (q : ℚ) :
    (exactOps lg).ofRat q = (q : F) := rfl

theorem exactOps_ofUint {F : Type} [LinearOrderedField F] (lg : F → F) (n : Nat) :
    (exactOps lg).ofUint n = (n : F) := rfl

theorem foldl_deviationStep_exact {F : Type} [LinearOrderedField F] (lg : F → F)
    (coeff : Coeff F) (ps : List (ThermistorPoint F)) (s : DeviationState F) :
    (ps.foldl (deviationStep (exactOps lg) coeff) s).maxDev
      = (ps.map (fun p => |(deviationRow (exactOps lg) coeff p).Deviation|)).foldl max s.maxDev ∧
    (ps.foldl (deviationStep (exactOps lg) coeff) s).avgDev
      = s.avgDev + (ps.map (fun p => |(deviationRow (exactOps lg) coeff p).Deviation|)).sum := by
  induction ps generalizing s with
  | nil => simp
  | cons p ps ih =>
    have hmax : (deviationStep (exactOps lg) coeff s p).maxDev
        = max s.maxDev |(deviationRow (exactOps lg) coeff p).Deviation| := by
      simp only [deviationStep, exactOps_gt, exactOps_abs, decide_eq_true_eq]
      by_cases h : s.maxDev < |(deviationRow (exactOps lg) coeff p).Deviation|
      · rw [if_pos h, max_eq_right (le_of_lt h)]
      · rw [if_neg h, max_eq_left (not_lt.mp h)]
    have havg : (deviationStep (exactOps lg) coeff s p).avgDev
        = s.avgDev + |(deviationRow (exactOps lg) coeff p).Deviation| := by
      simp only [deviationStep, exactOps_add, exactOps_abs]
    simp only [List.foldl_cons, List.map_cons, List.sum_cons]
    rw [(ih _).1, (ih _).2, hmax, havg, add_assoc]
    exact ⟨rfl, rfl⟩

theorem le_foldl_max {F : Type} [LinearOrder F] (l : List F) (m : F) : m ≤ l.foldl max m := by
  induction l generalizing m with
  | nil => exact le_refl m
  | cons x l ih => exact le_trans (le_max_left m x) (ih (max m x))

theorem le_foldl_max_of_mem {F : Type} [LinearOrder F] (l : List F) (m x : F) (hx : x ∈ l) :
    x ≤ l.foldl max m := by
  induction l generalizing m with
  | nil => cases hx
  | cons y l ih =>
    rcases List.mem_cons.mp hx with rfl | h
    · exact le_trans (le_max_right m x) (le_foldl_max l (max m x))
    · exact ih (max m y) h

theorem foldl_max_eq_or_mem {F : Type} [LinearOrder F] (l : List F) (m : F) :
    l.foldl max m = m ∨ l.foldl max m ∈ l := by
  induction l generalizing m with
  | nil => exact Or.inl rfl
  | cons y l ih =>
    rcases ih (max m y) with h | h
    · rcases max_choice m y with h2 | h2
      · left; rw [List.foldl_cons, h, h2]
      · right; rw [List.foldl_cons, h, h2]; exact List.mem_cons_self _ _
    · right; exact List.mem_cons_of_mem _ h

theorem sum_le_length_mul {F : Type} [LinearOrderedField F] (l : List F) (b : F)
    (h : ∀ x ∈ l, x ≤ b) : l.sum ≤ (l.length : F) * b := by
  induction l with
  | nil => simp
  | cons x l ih =>
    have h1 : x ≤ b := h x (List.mem_cons_self _ _)
    have h2 : l.sum ≤ (l.length : F) * b := ih (fun y hy => h y (List.mem_cons_of_mem _ hy))
    simp only [List.sum_cons, List.length_cons, Nat.cast_add, Nat.cast_one]
    linarith

theorem CheckDeviation_exact {F : Type} [LinearOrderedField F] (lg : F → F)
    (points : List (ThermistorPoint F)) (coeff : Coeff F) :
    (CheckDeviation (exactOps lg) points coeff).1
      = points.map (deviationRow (exactOps lg) coeff) ∧
    (CheckDeviation (exactOps lg) points coeff).2.1
      = ((points.map (deviationRow (exactOps lg) coeff)).map
          (fun row => |row.Deviation|)).foldl max 0 ∧
    (CheckDeviation (exactOps lg) points coeff).2.2
      = ((points.map (deviationRow (exactOps lg) coeff)).map
          (fun row => |row.Deviation|)).sum / (points.length : F) := by
  refine ⟨?_, ?_, ?_⟩
  · simp [CheckDeviation, foldl_deviationStep_fullTable]
  · simp only [CheckDeviation, (foldl_deviationStep_exact lg coeff points _).1, List.map_map,
      exactOps_ofRat, Rat.cast_zero]
    rfl
  · simp only [CheckDeviation, (foldl_deviationStep_exact lg coeff points _).2, List.map_map,
      exactOps_ofRat, exactOps_div, exactOps_ofUint, Rat.cast_zero, zero_add]
    rfl

theorem XFloat.sub_nan (x : XFloat) : XFloat.sub x XFloat.nan = XFloat.nan := by
  cases x <;> rfl

theorem XFloat.nan_div (x : XFloat) : XFloat.div XFloat.nan x = XFloat.nan := by
  cases x <;> rfl

theorem XFloat.nan_mul (x : XFloat) : XFloat.mul XFloat.nan x = XFloat.nan := by
  cases x <;> rfl

theorem CheckDeviation_negative_resistance (lg : ℚ → ℚ) (coeff : Coeff XFloat) (T : XFloat)
    (q : ℚ) (hq : q < 0) :
    CheckDeviation (ieeeOps lg) [{ Temp := T, Resistance := XFloat.fin q }] coeff
      = ([{ Resistance := XFloat.fin q, TemperatureCSV := T, TemperatureCalc := XFloat.nan,
            Deviation := XFloat.nan }], XFloat.zero false, XFloat.nan) := by
  have hrow : deviationRow (ieeeOps lg) coeff { Temp := T, Resistance := XFloat.fin q }
      = { Resistance := XFloat.fin q, TemperatureCSV := T, TemperatureCalc := XFloat.nan,
          Deviation := XFloat.nan } := by
    simp only [deviationRow, SteinhartCalculation, ieeeOps, XFloat.log_fin_of_neg lg hq,
      XFloat.mul_nan, XFloat.nan_mul, XFloat.add_nan, XFloat.div_nan, XFloat.nan_sub,
      XFloat.sub_nan]
  simp only [CheckDeviation, List.foldl_cons, List.foldl_nil, deviationStep, hrow]
  simp only [ieeeOps, FloatOps.gt, XFloat.abs, XFloat.lt_nan, XFloat.add_nan, XFloat.nan_div,
    Bool.false_eq_true, if_false, List.nil_append]
  rfl

/-- The aggregates of `CheckDeviation` over exact arithmetic. -/
theorem CheckDeviation_exact_aggregates {F : Type} [LinearOrderedField F] (lg : F → F)
    (points : List (ThermistorPoint F)) (coeff : Coeff F) (hne : points ≠ []) :
    0 ≤ (CheckDeviation (exactOps lg) points coeff).2.2 ∧
    (CheckDeviation (exactOps lg) points coeff).2.2
      ≤ (CheckDeviation (exactOps lg) points coeff).2.1 ∧
    ∀ row ∈ (CheckDeviation (exactOps lg) points coeff).1,
      |row.Deviation| ≤ (CheckDeviation (exactOps lg) points coeff).2.1 := by
  obtain ⟨hrows, hmax, havg⟩ := CheckDeviation_exact lg points coeff
  have hlen : (0 : F) < (points.length : F) := by
    have : 0 < points.length := List.length_pos.mpr hne
    exact_mod_cast this
  have hbound : ∀ x ∈ (points.map (deviationRow (exactOps lg) coeff)).map
      (fun row => |row.Deviation|),
      x ≤ ((points.map (deviationRow (exactOps lg) coeff)).map
        (fun row => |row.Deviation|)).foldl max 0 :=
    fun x hx => le_foldl_max_of_mem _ _ _ hx
  rw [hrows, hmax, havg]
  refine ⟨?_, ?_, ?_⟩
  · apply div_nonneg _ (le_of_lt hlen)
    apply List.sum_nonneg
    intro x hx
    obtain ⟨row, _, rfl⟩ := List.mem_map.mp hx
    exact abs_nonneg _
  · rw [div_le_iff₀ hlen]
    have h := sum_le_length_mul _ _ hbound
    simp only [List.length_map] at h
    linarith
  · intro row hrow
    exact hbound _ (List.mem_map.mpr ⟨row, hrow, rfl⟩)

theorem CheckDeviation_table {F : Type} (ops : FloatOps F) (points : List (ThermistorPoint F))
    (coeff : Coeff F) :
    (CheckDeviation ops points coeff).1 = points.map (deviationRow ops coeff) := by
  simp [CheckDeviation, foldl_deviationStep_fullTable]

theorem foldl_deviationStep_avgDev {F : Type} (ops : FloatOps F) (coeff : Coeff F)
    (ps : List (ThermistorPoint F)) (s : DeviationState F) :
    (ps.foldl (deviationStep ops coeff) s).avgDev
      = ((ps.map (deviationRow ops coeff)).map (fun row => ops.abs row.Deviation)).foldl
          ops.add s.avgDev := by
  induction ps generalizing s with
  | nil => rfl
  | cons p ps ih =>
    simp only [List.foldl_cons, List.map_cons]
    rw [ih]
    rfl

theorem foldl_deviationStep_maxDev (ops : FloatOps XFloat) (hops : IeeeCompatible ops)
    (coeff : Coeff XFloat) (ps : List (ThermistorPoint XFloat)) (s : DeviationState XFloat)
    (hs : s.maxDev ≠ XFloat.nan)
    (hd : ∀ p ∈ ps, (deviationRow ops coeff p).Deviation ≠ XFloat.nan) :
    XFloat.le s.maxDev (ps.foldl (deviationStep ops coeff) s).maxDev = true ∧
    (∀ p ∈ ps, XFloat.le (XFloat.abs (deviationRow ops coeff p).Deviation)
      (ps.foldl (deviationStep ops coeff) s).maxDev = true) ∧
    ((ps.foldl (deviationStep ops coeff) s).maxDev = s.maxDev ∨
      ∃ p ∈ ps, (ps.foldl (deviationStep ops coeff) s).maxDev
        = XFloat.abs (deviationRow ops coeff p).Deviation) := by
  induction ps generalizing s with
  | nil =>
    refine ⟨XFloat.le_self hs, ?_, Or.inl rfl⟩
    intro p hp
    cases hp
  | cons p ps ih =>
    have hdp : (deviationRow ops coeff p).Deviation ≠ XFloat.nan :=
      hd p (List.mem_cons_self _ _)
    have hdps : ∀ q ∈ ps, (deviationRow ops coeff q).Deviation ≠ XFloat.nan :=
      fun q hq => hd q (List.mem_cons_of_mem _ hq)
    have ha : XFloat.abs (deviationRow ops coeff p).Deviation ≠ XFloat.nan :=
      XFloat.abs_ne_nan hdp
    have hstep : (deviationStep ops coeff s p).maxDev
        = if XFloat.lt s.maxDev (XFloat.abs (deviationRow ops coeff p).Deviation) = true
          then XFloat.abs (deviationRow ops coeff p).Deviation else s.maxDev := by
      simp only [deviationStep, FloatOps.gt, hops.lt_eq, hops.abs_eq]
    rw [List.foldl_cons]
    by_cases hlt : XFloat.lt s.maxDev (XFloat.abs (deviationRow ops coeff p).Deviation) = true
    · have hm : (deviationStep ops coeff s p).maxDev
          = XFloat.abs (deviationRow ops coeff p).Deviation := by
        rw [hstep, if_pos hlt]
      obtain ⟨h1, h2, h3⟩ := ih (deviationStep ops coeff s p) (by rw [hm]; exact ha) hdps
      rw [hm] at h1 h3
      refine ⟨XFloat.le_chain (XFloat.le_of_lt_true hlt) h1, ?_, ?_⟩
      · intro q hq
        rcases List.mem_cons.mp hq with rfl | hq
        · exact h1
        · exact h2 q hq
      · right
        rcases h3 with h3 | ⟨q, hq, h3⟩
        · exact ⟨p, List.mem_cons_self _ _, h3⟩
        · exact ⟨q, List.mem_cons_of_mem _ hq, h3⟩
    · have hm : (deviationStep ops coeff s p).maxDev = s.maxDev := by
        rw [hstep, if_neg hlt]
      obtain ⟨h1, h2, h3⟩ := ih (deviationStep ops coeff s p) (by rw [hm]; exact hs) hdps
      rw [hm] at h1 h3
      have hle : XFloat.le (XFloat.abs (deviationRow ops coeff p).Deviation) s.maxDev = true :=
        XFloat.le_of_lt_false hs ha (by simpa using hlt)
      refine ⟨h1, ?_, ?_⟩
      · intro q hq
        rcases List.mem_cons.mp hq with rfl | hq
        · exact XFloat.le_chain hle h1
        · exact h2 q hq
      · rcases h3 with h3 | ⟨q, hq, h3⟩
        · exact Or.inl h3
        · exact Or.inr ⟨q, List.mem_cons_of_mem _ hq, h3⟩

theorem foldl_add_nonneg (ops : FloatOps XFloat) (hops : IeeeCompatible ops)
    (l : List XFloat) (a : XFloat) (ha : XFloat.le (XFloat.zero false) a = true)
    (hl : ∀ x ∈ l, XFloat.le (XFloat.zero false) x = true) :
    XFloat.le (XFloat.zero false) (l.foldl ops.add a) = true := by
  induction l generalizing a with
  | nil => exact ha
  | cons x l ih =>
    rw [List.foldl_cons]
    exact ih _ (hops.add_nonneg a x ha (hl x (List.mem_cons_self _ _)))
      (fun y hy => hl y (List.mem_cons_of_mem _ hy))

/-- The aggregates of `CheckDeviation` under the comparisons of IEEE-754, whatever the
rounding of the arithmetic, when no deviation is NaN. -/
theorem CheckDeviation_ieee (ops : FloatOps XFloat) (hops : IeeeCompatible ops)
    (points : List (ThermistorPoint XFloat)) (coeff : Coeff XFloat) (hne : points ≠ [])
    (hnan : ∀ row ∈ (CheckDeviation ops points coeff).1, row.Deviation ≠ XFloat.nan) :
    (∃ row ∈ (CheckDeviation ops points coeff).1,
      XFloat.le (CheckDeviation ops points coeff).2.1 (XFloat.abs row.Deviation) = true) ∧
    (∀ row ∈ (CheckDeviation ops points coeff).1,
      XFloat.le (XFloat.abs row.Deviation) (CheckDeviation ops points coeff).2.1 = true) ∧
    (CheckDeviation ops points coeff).2.2
      = ops.div (((CheckDeviation ops points coeff).1.map
          (fun row => ops.abs row.Deviation)).foldl ops.add (ops.ofRat 0))
        (ops.ofUint points.length) ∧
    XFloat.le (XFloat.zero false) (CheckDeviation ops points coeff).2.2 = true := by
  have htab := CheckDeviation_table ops points coeff
  have hd : ∀ p ∈ points, (deviationRow ops coeff p).Deviation ≠ XFloat.nan := by
    intro p hp
    exact hnan _ (by rw [htab]; exact List.mem_map.mpr ⟨p, hp, rfl⟩)
  have hz : (ops.ofRat 0) ≠ XFloat.nan := by
    rw [hops.zero_eq]
    exact fun h => XFloat.noConfusion h
  obtain ⟨_, hall, hatt⟩ := foldl_deviationStep_maxDev ops hops coeff points
    { fullTable := [], maxDev := ops.ofRat 0, avgDev := ops.ofRat 0 } hz hd
  have hmax : (CheckDeviation ops points coeff).2.1
      = (points.foldl (deviationStep ops coeff)
          { fullTable := [], maxDev := ops.ofRat 0, avgDev := ops.ofRat 0 }).maxDev := rfl
  have havg : (CheckDeviation ops points coeff).2.2
      = ops.div (((CheckDeviation ops points coeff).1.map
          (fun row => ops.abs row.Deviation)).foldl ops.add (ops.ofRat 0))
        (ops.ofUint points.length) := by
    have h2 := foldl_deviationStep_avgDev ops coeff points
      { fullTable := [], maxDev := ops.ofRat 0, avgDev := ops.ofRat 0 }
    rw [htab]
    show ops.div (points.foldl (deviationStep ops coeff)
      { fullTable := [], maxDev := ops.ofRat 0, avgDev := ops.ofRat 0 }).avgDev _ = _
    rw [h2]
  refine ⟨?_, ?_, havg, ?_⟩
  · rw [htab, hmax]
    rcases hatt with h | ⟨p, hp, h⟩
    · cases points with
      | nil => exact absurd rfl hne
      | cons p ps =>
        refine ⟨deviationRow ops coeff p, List.mem_map.mpr ⟨p, List.mem_cons_self _ _, rfl⟩, ?_⟩
        rw [h]
        show XFloat.le (ops.ofRat 0) _ = true
        rw [hops.zero_eq]
        exact XFloat.zero_le_abs (hd p (List.mem_cons_self _ _))
    · refine ⟨deviationRow ops coeff p, List.mem_map.mpr ⟨p, hp, rfl⟩, ?_⟩
      rw [h]
      exact XFloat.le_self (XFloat.abs_ne_nan (hd p hp))
  · intro row hrow
    rw [htab] at hrow
    obtain ⟨p, hp, rfl⟩ := List.mem_map.mp hrow
    rw [hmax]
    exact hall p hp
  · rw [havg]
    apply hops.div_nonneg _ _ _ (List.length_pos.mpr hne)
    apply foldl_add_nonneg ops hops
    · rw [hops.zero_eq]
      rfl
    · intro x hx
      obtain ⟨row, hrow, rfl⟩ := List.mem_map.mp hx
      rw [hops.abs_eq]
      exact XFloat.zero_le_abs (hnan row hrow)

/-- The row of a point with a resistance of 1 Ω under the coefficients `(c0, 0, 0)`, in the
arithmetic without rounding: `ln 1 = 0`, the model gives `1 / c0` kelvin. -/
theorem deviationRow_stubOps (c0 T : ℚ) (hc0 : c0 ≠ 0) (h1 : 1 / c0 - 27315 / 100 ≠ 0)
    (h2 : T - (1 / c0 - 27315 / 100) ≠ 0) :
    deviationRow stubOps
        { c0 := XFloat.fin c0, c1 := XFloat.zero false, c2 := XFloat.zero false }
        { Temp := XFloat.fin T, Resistance := XFloat.fin 1 }
      = { Resistance := XFloat.fin 1, TemperatureCSV := XFloat.fin T,
          TemperatureCalc := XFloat.fin (1 / c0 - 27315 / 100),
          Deviation := XFloat.fin (T - (1 / c0 - 27315 / 100)) } := by
  have el : XFloat.log stubLog (XFloat.fin 1) = XFloat.zero false := by
    simp [XFloat.log, stubLog, XFloat.ofRat]
  have e1 : XFloat.ofRat 1 = XFloat.fin 1 := XFloat.ofRat_of_ne (by norm_num)
  have ek : XFloat.ofRat (27315 / 100) = XFloat.fin (27315 / 100) :=
    XFloat.ofRat_of_ne (by norm_num)
  have hden : XFloat.add (XFloat.add (XFloat.fin c0)
      (XFloat.mul (XFloat.zero false) (XFloat.zero false)))
      (XFloat.mul (XFloat.zero false)
        (XFloat.mul (XFloat.mul (XFloat.zero false) (XFloat.zero false)) (XFloat.zero false)))
      = XFloat.fin c0 := rfl
  simp only [deviationRow, SteinhartCalculation, KelvinToCelsius, stubOps, ieeeOps, el, e1, ek,
    hden]
  rw [XFloat.div_fin_fin (by norm_num) hc0, XFloat.sub_fin_fin h1, XFloat.sub_fin_fin h2]

/-- Three points at 1 Ω, measured at 25 °C, 30 °C and 20 °C, under the coefficients
`(1/300, 0, 0)`: the model gives 300 K = 26.85 °C and the deviations are -1.85, 3.15 and
-6.85. -/
theorem CheckDeviation_three_points_table :
    (CheckDeviation stubOps
      [{ Temp := XFloat.fin 25, Resistance := XFloat.fin 1 },
       { Temp := XFloat.fin 30, Resistance := XFloat.fin 1 },
       { Temp := XFloat.fin 20, Resistance := XFloat.fin 1 }]
      { c0 := XFloat.fin (1 / 300), c1 := XFloat.zero false, c2 := XFloat.zero false }).1
    = [{ Resistance := XFloat.fin 1, TemperatureCSV := XFloat.fin 25,
         TemperatureCalc := XFloat.fin (537 / 20), Deviation := XFloat.fin (-37 / 20) },
       { Resistance := XFloat.fin 1, TemperatureCSV := XFloat.fin 30,
         TemperatureCalc := XFloat.fin (537 / 20), Deviation := XFloat.fin (63 / 20) },
       { Resistance := XFloat.fin 1, TemperatureCSV := XFloat.fin 20,
         TemperatureCalc := XFloat.fin (537 / 20), Deviation := XFloat.fin (-137 / 20) }] := by
  rw [CheckDeviation_table]
  simp only [List.map_cons, List.map_nil]
  rw [deviationRow_stubOps (1 / 300) 25 (by norm_num) (by norm_num) (by norm_num),
    deviationRow_stubOps (1 / 300) 30 (by norm_num) (by norm_num) (by norm_num),
    deviationRow_stubOps (1 / 300) 20 (by norm_num) (by norm_num) (by norm_num)]
  norm_num

theorem CheckDeviation_three_points_no_nan :
    ∀ row ∈ (CheckDeviation stubOps
      [{ Temp := XFloat.fin 25, Resistance := XFloat.fin 1 },
       { Temp := XFloat.fin 30, Resistance := XFloat.fin 1 },
       { Temp := XFloat.fin 20, Resistance := XFloat.fin 1 }]
      { c0 := XFloat.fin (1 / 300), c1 := XFloat.zero false, c2 := XFloat.zero false }).1,
      row.Deviation ≠ XFloat.nan := by
  rw [CheckDeviation_three_points_table]
  intro row hrow
  simp only [List.mem_cons, List.mem_singleton, List.not_mem_nil, or_false] at hrow
  rcases hrow with h | h | h <;> rw [h] <;> exact fun h => XFloat.noConfusion h

theorem round53_kelvin : round53 (27315 / 100) = 2402652809016115 / 8796093022208 :=
  round53_of_near (-44) 4805305618032230 (by norm_num) (by norm_num) (by norm_num)
    (by norm_num) (by norm_num)

theorem round53_three_T :
    round53 (10133099161583619 / 2251799813685248) = 2533274790395905 / 562949953421312 :=
  round53_of_tie_up (-50) 5066549580791810 (by norm_num) (by norm_num) (by norm_num)
    (by norm_num) (by decide)

theorem round53_one : round53 1 = 1 :=
  round53_of_near (-52) 4503599627370496 (by norm_num) (by norm_num) (by norm_num)
    (by norm_num) (by norm_num)

theorem round53_three : round53 3 = 3 :=
  round53_of_near (-51) 6755399441055744 (by norm_num) (by norm_num) (by norm_num)
    (by norm_num) (by norm_num)

theorem round53_c0 :
    round53 (4220836553567077 / 1152921504606846976)
      = 4220836553567077 / 1152921504606846976 :=
  round53_of_near (-61) 8441673107134154 (by norm_num) (by norm_num) (by norm_num)
    (by norm_num) (by norm_num)

theorem round53_inv_c0 :
    round53 (1 / (4220836553567077 / 1152921504606846976))
      = 2402652809016115 / 8796093022208 :=
  round53_of_near (-44) 4805305618032230 (by norm_num) (by norm_num) (by norm_num)
    (by norm_num) (by norm_num)

theorem round53_T :
    round53 (3377699720527873 / 2251799813685248) = 3377699720527873 / 2251799813685248 :=
  round53_of_near (-52) 6755399441055746 (by norm_num) (by norm_num) (by norm_num)
    (by norm_num) (by norm_num)

theorem round53_two_T :
    round53 (3377699720527873 / 2251799813685248 + 3377699720527873 / 2251799813685248)
      = 3377699720527873 / 1125899906842624 :=
  round53_of_near (-51) 6755399441055746 (by norm_num) (by norm_num) (by norm_num)
    (by norm_num) (by norm_num)

theorem round53_sum_T :
    round53 (3377699720527873 / 1125899906842624 + 3377699720527873 / 2251799813685248)
      = 2533274790395905 / 562949953421312 :=
  round53_of_tie_up (-50) 5066549580791810 (by norm_num) (by norm_num) (by norm_num)
    (by norm_num) (by decide)

theorem round53_mean_T :
    round53 (2533274790395905 / 562949953421312 / 3) = 6755399441055747 / 4503599627370496 :=
  round53_of_near (-52) 6755399441055747 (by norm_num) (by norm_num) (by norm_num)
    (by norm_num) (by norm_num)

/-- The row of the point `(1.5000000000000004 °C, 1 Ω)` under the coefficients
`(0.0036609921288669233, 0, 0)` in `float64` arithmetic with rounding: `1 / c0` rounds to
273.15, the calculated temperature is `0` and the deviation is the measured temperature. -/
theorem deviationRow_roundedOps :
    deviationRow (roundedOps stubLog)
        { c0 := XFloat.fin (4220836553567077 / 1152921504606846976),
          c1 := XFloat.zero false, c2 := XFloat.zero false }
        { Temp := XFloat.fin (3377699720527873 / 2251799813685248),
          Resistance := XFloat.fin 1 }
      = { Resistance := XFloat.fin 1,
          TemperatureCSV := XFloat.fin (3377699720527873 / 2251799813685248),
          TemperatureCalc := XFloat.zero false,
          Deviation := XFloat.fin (3377699720527873 / 2251799813685248) } := by
  have el : XFloat.round (XFloat.log stubLog (XFloat.fin 1)) = XFloat.zero false := by
    have h : XFloat.log stubLog (XFloat.fin 1) = XFloat.zero false := by
      simp [XFloat.log, stubLog, XFloat.ofRat]
    rw [h]
    rfl
  have ez : XFloat.round (XFloat.mul (XFloat.zero false) (XFloat.zero false))
      = XFloat.zero false := rfl
  have ec : XFloat.round (XFloat.add (XFloat.fin (4220836553567077 / 1152921504606846976))
      (XFloat.zero false)) = XFloat.fin (4220836553567077 / 1152921504606846976) := by
    show XFloat.fin (round53 _) = _
    rw [round53_c0]
  have e1 : XFloat.round (XFloat.ofRat 1) = XFloat.fin 1 := by
    rw [XFloat.ofRat_of_ne (by norm_num)]
    show XFloat.fin (round53 1) = _
    rw [round53_one]
  have ek : XFloat.round (XFloat.ofRat (27315 / 100))
      = XFloat.fin (2402652809016115 / 8796093022208) := by
    rw [XFloat.ofRat_of_ne (by norm_num)]
    show XFloat.fin (round53 _) = _
    rw [round53_kelvin]
  have es : XFloat.round (XFloat.div (XFloat.fin 1)
      (XFloat.fin (4220836553567077 / 1152921504606846976)))
      = XFloat.fin (2402652809016115 / 8796093022208) := by
    rw [XFloat.div_fin_fin (by norm_num) (by norm_num)]
    show XFloat.fin (round53 _) = _
    rw [round53_inv_c0]
  have et : XFloat.round (XFloat.sub (XFloat.fin (2402652809016115 / 8796093022208))
      (XFloat.fin (2402652809016115 / 8796093022208))) = XFloat.zero false := by
    rw [XFloat.sub_fin_fin_of_eq (by norm_num)]
    rfl
  have ed : XFloat.round (XFloat.sub (XFloat.fin (3377699720527873 / 2251799813685248))
      (XFloat.zero false)) = XFloat.fin (3377699720527873 / 2251799813685248) := by
    show XFloat.fin (round53 _) = _
    rw [round53_T]
  simp only [deviationRow, SteinhartCalculation, KelvinToCelsius, roundedOps, el, ez, ec, e1,
    ek, es, et, ed]

/-- With rounding, three points `(1.5000000000000004 °C, 1 Ω)` under the coefficients
`(0.0036609921288669233, 0, 0)` have the deviation 1.5000000000000004 each; their sum rounds
up at a tie, and the mean 1.5000000000000007 is above the maximum 1.5000000000000004. -/
theorem CheckDeviation_roundedOps_three :
    CheckDeviation (roundedOps stubLog)
      [{ Temp := XFloat.fin (3377699720527873 / 2251799813685248), Resistance := XFloat.fin 1 },
       { Temp := XFloat.fin (3377699720527873 / 2251799813685248), Resistance := XFloat.fin 1 },
       { Temp := XFloat.fin (3377699720527873 / 2251799813685248), Resistance := XFloat.fin 1 }]
      { c0 := XFloat.fin (4220836553567077 / 1152921504606846976),
        c1 := XFloat.zero false, c2 := XFloat.zero false }
    = ([{ Resistance := XFloat.fin 1,
          TemperatureCSV := XFloat.fin (3377699720527873 / 2251799813685248),
          TemperatureCalc := XFloat.zero false,
          Deviation := XFloat.fin (3377699720527873 / 2251799813685248) },
        { Resistance := XFloat.fin 1,
          TemperatureCSV := XFloat.fin (3377699720527873 / 2251799813685248),
          TemperatureCalc := XFloat.zero false,
          Deviation := XFloat.fin (3377699720527873 / 2251799813685248) },
        { Resistance := XFloat.fin 1,
          TemperatureCSV := XFloat.fin (3377699720527873 / 2251799813685248),
          TemperatureCalc := XFloat.zero false,
          Deviation := XFloat.fin (3377699720527873 / 2251799813685248) }],
       XFloat.fin (3377699720527873 / 2251799813685248),
       XFloat.fin (6755399441055747 / 4503599627370496)) := by
  have hz : (roundedOps stubLog).ofRat 0 = XFloat.zero false := by
    simp [roundedOps, XFloat.ofRat, XFloat.round]
  have habs : (roundedOps stubLog).abs (XFloat.fin (3377699720527873 / 2251799813685248))
      = XFloat.fin (3377699720527873 / 2251799813685248) := by
    show XFloat.fin |_| = _
    rw [abs_of_pos (by norm_num)]
  have hg1 : (roundedOps stubLog).gt (XFloat.fin (3377699720527873 / 2251799813685248))
      (XFloat.zero false) = true := by
    show decide ((0 : ℚ) < 3377699720527873 / 2251799813685248) = true
    exact decide_eq_true (by norm_num)
  have hg2 : (roundedOps stubLog).gt (XFloat.fin (3377699720527873 / 2251799813685248))
      (XFloat.fin (3377699720527873 / 2251799813685248)) = false := by
    show decide ((3377699720527873 / 2251799813685248 : ℚ)
      < 3377699720527873 / 2251799813685248) = false
    exact decide_eq_false (lt_irrefl _)
  have ha1 : (roundedOps stubLog).add (XFloat.zero false)
      (XFloat.fin (3377699720527873 / 2251799813685248))
      = XFloat.fin (3377699720527873 / 2251799813685248) := by
    show XFloat.fin (round53 _) = _
    rw [round53_T]
  have ha2 : (roundedOps stubLog).add (XFloat.fin (3377699720527873 / 2251799813685248))
      (XFloat.fin (3377699720527873 / 2251799813685248))
      = XFloat.fin (3377699720527873 / 1125899906842624) := by
    show XFloat.round (XFloat.ofRat _) = _
    rw [XFloat.ofRat_of_ne (by norm_num)]
    show XFloat.fin (round53 _) = _
    rw [round53_two_T]
  have ha3 : (roundedOps stubLog).add (XFloat.fin (3377699720527873 / 1125899906842624))
      (XFloat.fin (3377699720527873 / 2251799813685248))
      = XFloat.fin (2533274790395905 / 562949953421312) := by
    show XFloat.round (XFloat.ofRat _) = _
    rw [XFloat.ofRat_of_ne (by norm_num)]
    show XFloat.fin (round53 _) = _
    rw [round53_sum_T]
  have h3 : (roundedOps stubLog).ofUint 3 = XFloat.fin 3 := by
    show XFloat.round (XFloat.ofRat ((3 : ℕ) : ℚ)) = _
    rw [XFloat.ofRat_of_ne (by norm_num)]
    show XFloat.fin (round53 _) = _
    norm_num [round53_three]
  have hdiv : (roundedOps stubLog).div (XFloat.fin (2533274790395905 / 562949953421312))
      (XFloat.fin 3) = XFloat.fin (6755399441055747 / 4503599627370496) := by
    show XFloat.round (XFloat.div _ _) = _
    rw [XFloat.div_fin_fin (by norm_num) (by norm_num)]
    show XFloat.fin (round53 _) = _
    rw [round53_mean_T]
  simp only [CheckDeviation, List.foldl_cons, List.foldl_nil, deviationStep,
    deviationRow_roundedOps, hz, habs, hg1, hg2, ha1, ha2, ha3, List.length_cons,
    List.length_nil, List.nil_append, List.cons_append, if_true, Bool.false_eq_true, if_false]
  rw [show 0 + 1 + 1 + 1 = 3 from rfl, h3, hdiv]

/-- C13 (as amended): for every non-empty list of points and every coefficient triple for which
no returned deviation is NaN, under the comparisons of IEEE-754 and whatever the rounding of
the arithmetic, `maxDev` is the maximum of the absolute deviations of the returned rows (the
absolute deviation of some row is not below it and that of no row is above it), and `avgDev`
is the sum of the absolute deviations, accumulated from `0` in the order of the rows, divided
by `float64(len(points))`. -/
theorem CheckDeviation_max_and_mean (ops : FloatOps XFloat) (hops : IeeeCompatible ops)
    (points : List (ThermistorPoint XFloat)) (coeff : Coeff XFloat) (hne : points ≠ [])
    (hnan : ∀ row ∈ (CheckDeviation ops points coeff).1, row.Deviation ≠ XFloat.nan) :
    (∃ row ∈ (CheckDeviation ops points coeff).1,
      XFloat.le (CheckDeviation ops points coeff).2.1 (XFloat.abs row.Deviation) = true) ∧
    (∀ row ∈ (CheckDeviation ops points coeff).1,
      XFloat.le (XFloat.abs row.Deviation) (CheckDeviation ops points coeff).2.1 = true) ∧
    (CheckDeviation ops points coeff).2.2
      = ops.div (((CheckDeviation ops points coeff).1.map
          (fun row => ops.abs row.Deviation)).foldl ops.add (ops.ofRat 0))
        (ops.ofUint points.length) :=
  ⟨(CheckDeviation_ieee ops hops points coeff hne hnan).1,
    (CheckDeviation_ieee ops hops points coeff hne hnan).2.1,
    (CheckDeviation_ieee ops hops points coeff hne hnan).2.2.1⟩

/-- Witness for C13 (as amended): three points at 1 Ω measured at 25 °C, 30 °C and 20 °C, with
the coefficients `(1/300, 0, 0)`; the deviations are -1.85, 3.15 and -6.85. -/
theorem CheckDeviation_max_and_mean_witness :
    (IeeeCompatible stubOps ∧
      [({ Temp := XFloat.fin 25, Resistance := XFloat.fin 1 } : ThermistorPoint XFloat),
       { Temp := XFloat.fin 30, Resistance := XFloat.fin 1 },
       { Temp := XFloat.fin 20, Resistance := XFloat.fin 1 }] ≠ [] ∧
      ∀ row ∈ (CheckDeviation stubOps
        [{ Temp := XFloat.fin 25, Resistance := XFloat.fin 1 },
         { Temp := XFloat.fin 30, Resistance := XFloat.fin 1 },
         { Temp := XFloat.fin 20, Resistance := XFloat.fin 1 }]
        { c0 := XFloat.fin (1 / 300), c1 := XFloat.zero false, c2 := XFloat.zero false }).1,
        row.Deviation ≠ XFloat.nan) ∧
    ((∃ row ∈ (CheckDeviation stubOps
        [{ Temp := XFloat.fin 25, Resistance := XFloat.fin 1 },
         { Temp := XFloat.fin 30, Resistance := XFloat.fin 1 },
         { Temp := XFloat.fin 20, Resistance := XFloat.fin 1 }]
        { c0 := XFloat.fin (1 / 300), c1 := XFloat.zero false, c2 := XFloat.zero false }).1,
      XFloat.le (CheckDeviation stubOps
        [{ Temp := XFloat.fin 25, Resistance := XFloat.fin 1 },
         { Temp := XFloat.fin 30, Resistance := XFloat.fin 1 },
         { Temp := XFloat.fin 20, Resistance := XFloat.fin 1 }]
        { c0 := XFloat.fin (1 / 300), c1 := XFloat.zero false, c2 := XFloat.zero false }).2.1
        (XFloat.abs row.Deviation) = true) ∧
    ∀ row ∈ (CheckDeviation stubOps
        [{ Temp := XFloat.fin 25, Resistance := XFloat.fin 1 },
         { Temp := XFloat.fin 30, Resistance := XFloat.fin 1 },
         { Temp := XFloat.fin 20, Resistance := XFloat.fin 1 }]
        { c0 := XFloat.fin (1 / 300), c1 := XFloat.zero false, c2 := XFloat.zero false }).1,
      XFloat.le (XFloat.abs row.Deviation) (CheckDeviation stubOps
        [{ Temp := XFloat.fin 25, Resistance := XFloat.fin 1 },
         { Temp := XFloat.fin 30, Resistance := XFloat.fin 1 },
         { Temp := XFloat.fin 20, Resistance := XFloat.fin 1 }]
        { c0 := XFloat.fin (1 / 300), c1 := XFloat.zero false, c2 := XFloat.zero false }).2.1
        = true) :=
  ⟨⟨ieeeOps_compatible stubLog, List.cons_ne_nil _ _, CheckDeviation_three_points_no_nan⟩,
    (CheckDeviation_max_and_mean stubOps (ieeeOps_compatible stubLog) _ _
      (List.cons_ne_nil _ _) CheckDeviation_three_points_no_nan).1,
    (CheckDeviation_max_and_mean stubOps (ieeeOps_compatible stubLog) _ _
      (List.cons_ne_nil _ _) CheckDeviation_three_points_no_nan).2.1⟩

/-- C13 fails as stated at the single point 25 °C, -1 Ω (with `testSteinhartCoeff`): the
logarithm of the resistance is NaN, so is the deviation of the only row, the comparison
`|deviation| > maxDev` is false and `maxDev` stays `0`, which is not the absolute deviation of
any row. -/
theorem CheckDeviation_max_counterexample :
    CheckDeviation stubOps [{ Temp := XFloat.fin 25, Resistance := XFloat.fin (-1) }]
        (testSteinhartCoeff stubOps)
      = ([{ Resistance := XFloat.fin (-1), TemperatureCSV := XFloat.fin 25,
            TemperatureCalc := XFloat.nan, Deviation := XFloat.nan }],
          XFloat.zero false, XFloat.nan) ∧
    XFloat.eq (XFloat.zero false) (XFloat.abs XFloat.nan) = false :=
  ⟨CheckDeviation_negative_resistance stubLog _ _ (-1) (by norm_num), rfl⟩

/-- C19 (as amended): for every non-empty list of points and every coefficient triple for which
no returned deviation is NaN, under the comparisons of IEEE-754 and whatever the rounding of
the arithmetic, every returned row has `|row.Deviation| ≤ maxDev`, and `0 ≤ avgDev`.  Over
exact arithmetic, for points with a positive resistance at which the model divides by no zero,
`0 ≤ avgDev ≤ maxDev`. -/
theorem CheckDeviation_mean_le_max (ops : FloatOps XFloat) (hops : IeeeCompatible ops)
    (points : List (ThermistorPoint XFloat)) (coeff : Coeff XFloat) (hne : points ≠ [])
    (hnan : ∀ row ∈ (CheckDeviation ops points coeff).1, row.Deviation ≠ XFloat.nan) :
    (∀ row ∈ (CheckDeviation ops points coeff).1,
      XFloat.le (XFloat.abs row.Deviation) (CheckDeviation ops points coeff).2.1 = true) ∧
    XFloat.le (XFloat.zero false) (CheckDeviation ops points coeff).2.2 = true ∧
    ∀ (F : Type) [LinearOrderedField F] (lg : F → F) (pts : List (ThermistorPoint F))
      (co : Coeff F), pts ≠ [] →
      (∀ p ∈ pts, 0 < p.Resistance ∧ co.c0 + co.c1 * lg p.Resistance
        + co.c2 * (lg p.Resistance * lg p.Resistance * lg p.Resistance) ≠ 0) →
      0 ≤ (CheckDeviation (exactOps lg) pts co).2.2 ∧
      (CheckDeviation (exactOps lg) pts co).2.2 ≤ (CheckDeviation (exactOps lg) pts co).2.1 :=
  ⟨(CheckDeviation_ieee ops hops points coeff hne hnan).2.1,
    (CheckDeviation_ieee ops hops points coeff hne hnan).2.2.2,
    fun _ _ lg pts co hpts _ =>
      ⟨(CheckDeviation_exact_aggregates lg pts co hpts).1,
        (CheckDeviation_exact_aggregates lg pts co hpts).2.1⟩⟩

/-- Witness for C19 (as amended): three points at 1 Ω measured at 25 °C, 30 °C and 20 °C, with
the coefficients `(1/300, 0, 0)`; the deviations are -1.85, 3.15 and -6.85, `maxDev` is 6.85
and `avgDev` is 3.95. -/
theorem CheckDeviation_mean_le_max_witness :
    (IeeeCompatible stubOps ∧
      [({ Temp := XFloat.fin 25, Resistance := XFloat.fin 1 } : ThermistorPoint XFloat),
       { Temp := XFloat.fin 30, Resistance := XFloat.fin 1 },
       { Temp := XFloat.fin 20, Resistance := XFloat.fin 1 }] ≠ [] ∧
      ∀ row ∈ (CheckDeviation stubOps
        [{ Temp := XFloat.fin 25, Resistance := XFloat.fin 1 },
         { Temp := XFloat.fin 30, Resistance := XFloat.fin 1 },
         { Temp := XFloat.fin 20, Resistance := XFloat.fin 1 }]
        { c0 := XFloat.fin (1 / 300), c1 := XFloat.zero false, c2 := XFloat.zero false }).1,
        row.Deviation ≠ XFloat.nan) ∧
    XFloat.le (XFloat.zero false) (CheckDeviation stubOps
        [{ Temp := XFloat.fin 25, Resistance := XFloat.fin 1 },
         { Temp := XFloat.fin 30, Resistance := XFloat.fin 1 },
         { Temp := XFloat.fin 20, Resistance := XFloat.fin 1 }]
        { c0 := XFloat.fin (1 / 300), c1 := XFloat.zero false, c2 := XFloat.zero false }).2.2
      = true ∧
    (CheckDeviation (exactOps stubLog)
        [({ Temp := 25, Resistance := 1 } : ThermistorPoint ℚ), { Temp := 30, Resistance := 1 },
         { Temp := 20, Resistance := 1 }]
        { c0 := 1 / 300, c1 := 0, c2 := 0 }).2.2
      ≤ (CheckDeviation (exactOps stubLog)
        [({ Temp := 25, Resistance := 1 } : ThermistorPoint ℚ), { Temp := 30, Resistance := 1 },
         { Temp := 20, Resistance := 1 }]
        { c0 := 1 / 300, c1 := 0, c2 := 0 }).2.1 :=
  ⟨⟨ieeeOps_compatible stubLog, List.cons_ne_nil _ _, CheckDeviation_three_points_no_nan⟩,
    (CheckDeviation_mean_le_max stubOps (ieeeOps_compatible stubLog) _ _
      (List.cons_ne_nil _ _) CheckDeviation_three_points_no_nan).2.1,
    ((CheckDeviation_mean_le_max stubOps (ieeeOps_compatible stubLog) _ _
      (List.cons_ne_nil _ _) CheckDeviation_three_points_no_nan).2.2 ℚ stubLog
      [{ Temp := 25, Resistance := 1 }, { Temp := 30, Resistance := 1 },
       { Temp := 20, Resistance := 1 }]
      { c0 := 1 / 300, c1 := 0, c2 := 0 } (List.cons_ne_nil _ _)
      (by
        intro p hp
        simp only [List.mem_cons, List.mem_singleton, List.not_mem_nil, or_false] at hp
        rcases hp with h | h | h <;> rw [h] <;> simp only [stubLog] <;> norm_num)).2⟩

/-- C19 fails as stated at two inputs.  At the single point 0 °C, -27219 Ω (with
`testSteinhartCoeff`) the logarithm of the resistance is NaN, `avgDev` is NaN and `maxDev` is
`0`; `0 <= avgDev`, `avgDev <= maxDev` and `|deviation| <= maxDev` are all false.  At three
points `(1.5000000000000004 °C, 1 Ω)` with the coefficients `(0.0036609921288669233, 0, 0)`
no value is NaN, each deviation is 1.5000000000000004, their sum rounds up at a tie, and
`avgDev = 1.5000000000000007` is above `maxDev = 1.5000000000000004`. -/
theorem CheckDeviation_mean_le_max_counterexample :
    (CheckDeviation stubOps [{ Temp := XFloat.zero false, Resistance := XFloat.fin (-27219) }]
        (testSteinhartCoeff stubOps)
      = ([{ Resistance := XFloat.fin (-27219), TemperatureCSV := XFloat.zero false,
            TemperatureCalc := XFloat.nan, Deviation := XFloat.nan }],
          XFloat.zero false, XFloat.nan) ∧
      XFloat.le (XFloat.zero false) XFloat.nan = false ∧
      XFloat.le XFloat.nan (XFloat.zero false) = false ∧
      XFloat.le (XFloat.abs XFloat.nan) (XFloat.zero false) = false) ∧
    (CheckDeviation (roundedOps stubLog)
        [{ Temp := XFloat.fin (3377699720527873 / 2251799813685248),
           Resistance := XFloat.fin 1 },
         { Temp := XFloat.fin (3377699720527873 / 2251799813685248),
           Resistance := XFloat.fin 1 },
         { Temp := XFloat.fin (3377699720527873 / 2251799813685248),
           Resistance := XFloat.fin 1 }]
        { c0 := XFloat.fin (4220836553567077 / 1152921504606846976),
          c1 := XFloat.zero false, c2 := XFloat.zero false }
      = ([{ Resistance := XFloat.fin 1,
            TemperatureCSV := XFloat.fin (3377699720527873 / 2251799813685248),
            TemperatureCalc := XFloat.zero false,
            Deviation := XFloat.fin (3377699720527873 / 2251799813685248) },
          { Resistance := XFloat.fin 1,
            TemperatureCSV := XFloat.fin (3377699720527873 / 2251799813685248),
            TemperatureCalc := XFloat.zero false,
            Deviation := XFloat.fin (3377699720527873 / 2251799813685248) },
          { Resistance := XFloat.fin 1,
            TemperatureCSV := XFloat.fin (3377699720527873 / 2251799813685248),
            TemperatureCalc := XFloat.zero false,
            Deviation := XFloat.fin (3377699720527873 / 2251799813685248) }],
         XFloat.fin (3377699720527873 / 2251799813685248),
         XFloat.fin (6755399441055747 / 4503599627370496)) ∧
      XFloat.le (XFloat.fin (6755399441055747 / 4503599627370496))
        (XFloat.fin (3377699720527873 / 2251799813685248)) = false) := by
  refine ⟨⟨CheckDeviation_negative_resistance stubLog _ _ (-27219) (by norm_num), rfl, rfl,
    rfl⟩, CheckDeviation_roundedOps_three, ?_⟩
  · simp only [XFloat.le, XFloat.lt, Bool.not_eq_false', decide_eq_true_eq]
    norm_num

/-! ## C18: the sign of the inverted resistance -/

/-- C11 (as amended): `FindSteinhartCoefficients` does not test the number of points; the
test is made by `ReadCSV`.  For every list of fewer than 3 points (the empty list included)
that `ParseThermistorCSV` hands over, `ReadCSV` returns the error "not enough points" and no
points, and `main` stops on that error without calling `FindSteinhartCoefficients`. -/
theorem ReadCSV_error_of_lt_three {F : Type} (metadata : List (String × String))
    (points : List (ThermistorPoint F)) (hlt : points.length < 3) :
    (ReadCSV (.ok (metadata, points))).err = some .notEnoughPoints ∧
    (ReadCSV (.ok (metadata, points))).points = [] ∧
    (ReadCSV (.ok (metadata, points))).metadata = [] ∧
    ∀ (ops : FloatOps F) (solve : Nat → Nat → List F → List F → Except Failure (List F)),
      mainCoefficients ops solve (.ok (metadata, points))
        = .error (.fatalCsv .notEnoughPoints) := by
  have herr : (ReadCSV (F := F) (.ok (metadata, points))).err = some .notEnoughPoints := by
    simp [ReadCSV, hlt]
  refine ⟨herr, ?_, ?_, ?_⟩
  · simp [ReadCSV, hlt]
  · simp [ReadCSV, hlt]
  · intro ops solve
    simp only [mainCoefficients, herr]

/-- Witness for C11 (as amended): the two points of the case "too few points" of
`TestReadCSV_Warnings`. -/
theorem ReadCSV_error_of_lt_three_witness :
    ([({ Temp := 25, Resistance := 10000 } : ThermistorPoint ℚ),
      { Temp := 50, Resistance := 5000 }].length < 3) ∧
    (ReadCSV (.ok ([], [({ Temp := 25, Resistance := 10000 } : ThermistorPoint ℚ),
      { Temp := 50, Resistance := 5000 }]))).err = some .notEnoughPoints :=
  ⟨by decide, (ReadCSV_error_of_lt_three [] [({ Temp := 25, Resistance := 10000 } :
    ThermistorPoint ℚ), { Temp := 50, Resistance := 5000 }] (by decide)).1⟩

/-- C11 fails as stated at the empty list: `leastSquares` reads `X[0]` of an empty slice, so
`FindSteinhartCoefficients` ends in the panic "index out of range" and returns nothing, no
error value either. -/
theorem FindSteinhartCoefficients_empty_counterexample :
    ([] : List (ThermistorPoint ℚ)).length < 3 ∧
    FindSteinhartCoefficients (exactOps stubLog) qrSolve ([] : List (ThermistorPoint ℚ))
      = .error .indexOutOfRange :=
  ⟨by decide, rfl⟩

/-! ## Auxiliary facts: the linear solver -/

theorem dotProduct_finsum {F : Type} [LinearOrderedField F] {m n : Nat} (u : Fin m → F)
    (f : Fin n → Fin m → F) :
    Matrix.dotProduct u (∑ j, f j) = ∑ j, Matrix.dotProduct u (f j) := by
  simp only [Matrix.dotProduct, Finset.sum_apply, Finset.mul_sum]
  exact Finset.sum_comm

theorem orthoSolve_residual {F : Type} [LinearOrderedField F] {m : Nat} (n : Nat) :
    ∀ (a : Fin n → Fin m → F) (y : Fin m → F) (β : Fin n → F),
      orthoSolve n a y = some β →
      ∀ k, Matrix.dotProduct (a k) (∑ j, β j • a j - y) = 0 := by
  induction n with
  | zero => intro a y β _ k; exact k.elim0
  | succ n ih =>
    intro a y β h
    rw [orthoSolve] at h
    simp only at h
    split_ifs at h with hd
    split at h
    · cases h
    · rename_i β' hβ'
      simp only [Option.some.injEq] at h
      subst h
      have hrec := ih _ _ _ hβ'
      set q := a 0 with hq
      set d := Matrix.dotProduct q q with hdd
      set c := Matrix.dotProduct q y / d with hc
      -- the residual equals the residual of the reduced system
      have hres : (∑ j : Fin (n + 1),
            (Fin.cons (c - ∑ j, (Matrix.dotProduct q (a j.succ) / d) * β' j) β' :
              Fin (n + 1) → F) j • a j) - y
          = (∑ j : Fin n, β' j • (a j.succ - (Matrix.dotProduct q (a j.succ) / d) • q))
            - (y - c • q) := by
        rw [Fin.sum_univ_succ]
        simp only [Fin.cons_zero, Fin.cons_succ, smul_sub, Finset.sum_sub_distrib, smul_smul]
        rw [← Finset.sum_smul]
        simp only [sub_smul, Finset.sum_smul, mul_comm]
        abel
      rw [hres]
      have hdq : d ≠ 0 := hd
      have hq0 : Matrix.dotProduct q
          ((∑ j : Fin n, β' j • (a j.succ - (Matrix.dotProduct q (a j.succ) / d) • q))
            - (y - c • q)) = 0 := by
        rw [Matrix.dotProduct_sub, dotProduct_finsum, Matrix.dotProduct_sub]
        have h1 : ∀ j : Fin n, Matrix.dotProduct q
            (β' j • (a j.succ - (Matrix.dotProduct q (a j.succ) / d) • q)) = 0 := by
          intro j
          rw [Matrix.dotProduct_smul, Matrix.dotProduct_sub, Matrix.dotProduct_smul]
          simp only [smul_eq_mul]
          rw [← hdd]
          field_simp
        have h2 : Matrix.dotProduct q (c • q) = Matrix.dotProduct q y := by
          rw [Matrix.dotProduct_smul, smul_eq_mul, ← hdd, hc]
          field_simp
        rw [Finset.sum_eq_zero (fun j _ => h1 j), h2]
        ring
      intro k
      refine Fin.cases ?_ (fun j => ?_) k
      · exact hq0
      · have h3 : a j.succ = (a j.succ - (Matrix.dotProduct q (a j.succ) / d) • q)
            + (Matrix.dotProduct q (a j.succ) / d) • q := by
          abel
        rw [h3, Matrix.add_dotProduct, Matrix.smul_dotProduct, hq0, hrec j]
        simp

theorem orthoSolve_isSome {F : Type} [LinearOrderedField F] {m : Nat} (n : Nat) :
    ∀ (a : Fin n → Fin m → F) (y : Fin m → F),
      (∀ g : Fin n → F, ∑ j, g j • a j = 0 → g = 0) → ∃ β, orthoSolve n a y = some β := by
  induction n with
  | zero => intro a y _; exact ⟨_, rfl⟩
  | succ n ih =>
    intro a y hind
    have hq : a 0 ≠ 0 := by
      intro h0
      have h1 := hind (Pi.single 0 1) (by
        rw [Finset.sum_eq_single 0]
        · simp [h0]
        · intro j _ hj; simp [Pi.single_eq_of_ne hj]
        · intro h; exact absurd (Finset.mem_univ _) h)
      have h2 := congrFun h1 0
      simp at h2
    have hd : Matrix.dotProduct (a 0) (a 0) ≠ 0 :=
      fun h => hq (Matrix.dotProduct_self_eq_zero.mp h)
    have hind' : ∀ g : Fin n → F,
        ∑ j, g j • (a j.succ
          - (Matrix.dotProduct (a 0) (a j.succ) / Matrix.dotProduct (a 0) (a 0)) • a 0) = 0 →
        g = 0 := by
      intro g hg
      have h1 := hind (Fin.cons
        (-∑ j, g j * (Matrix.dotProduct (a 0) (a j.succ) / Matrix.dotProduct (a 0) (a 0))) g) (by
        rw [Fin.sum_univ_succ]
        simp only [Fin.cons_zero, Fin.cons_succ]
        rw [← hg]
        simp only [smul_sub, Finset.sum_sub_distrib, smul_smul, neg_smul, Finset.sum_smul]
        abel)
      funext j
      have h2 := congrFun h1 j.succ
      simpa using h2
    obtain ⟨β', hβ'⟩ := ih _
      (y - (Matrix.dotProduct (a 0) y / Matrix.dotProduct (a 0) (a 0)) • a 0) hind'
    refine ⟨Fin.cons (Matrix.dotProduct (a 0) y / Matrix.dotProduct (a 0) (a 0)
      - ∑ j, (Matrix.dotProduct (a 0) (a j.succ) / Matrix.dotProduct (a 0) (a 0)) * β' j) β',
      ?_⟩
    rw [orthoSolve]
    simp only
    rw [if_neg hd, hβ']

theorem flatten_getD {F : Type} [Zero F] (X : List (List F)) (c : Nat)
    (h : ∀ row ∈ X, row.length = c) (i j : Nat) (hj : j < c) :
    X.flatten.getD (i * c + j) 0 = (X.getD i []).getD j 0 := by
  induction X generalizing i with
  | nil => simp
  | cons row X ih =>
    have hrow : row.length = c := h row (List.mem_cons_self _ _)
    have hX : ∀ r ∈ X, r.length = c := fun r hr => h r (List.mem_cons_of_mem _ hr)
    cases i with
    | zero =>
      rw [List.flatten_cons, Nat.zero_mul, Nat.zero_add,
        List.getD_append _ _ _ _ (by omega), List.getD_cons_zero]
    | succ i =>
      have hidx : (i + 1) * c + j - row.length = i * c + j := by
        rw [hrow, Nat.succ_mul]; omega
      rw [List.flatten_cons, List.getD_append_right _ _ _ _ (by rw [hrow, Nat.succ_mul]; omega),
        hidx, List.getD_cons_succ, ih hX]

theorem flatten_length_of_rows {F : Type} (X : List (List F)) (c : Nat)
    (h : ∀ row ∈ X, row.length = c) : X.flatten.length = X.length * c := by
  induction X with
  | nil => simp
  | cons row X ih =>
    have hrow : row.length = c := h row (List.mem_cons_self _ _)
    have hX : ∀ r ∈ X, r.length = c := fun r hr => h r (List.mem_cons_of_mem _ hr)
    rw [List.flatten_cons, List.length_append, ih hX, hrow, List.length_cons, Nat.succ_mul]
    omega

theorem mapM_getAt_map_succ {α : Type} (a : α) (l : List α) (is : List Nat) :
    (is.map Nat.succ).mapM (getAt (a :: l)) = is.mapM (getAt l) := by
  induction is with
  | nil => rfl
  | cons i is ih =>
    have hstep : getAt (a :: l) i.succ = getAt l i := by
      simp only [getAt, Nat.succ_eq_add_one, List.getElem?_cons_succ]
    rw [List.map_cons, List.mapM_cons, List.mapM_cons, ih, hstep]

theorem mapM_getAt_range {α : Type} (l : List α) :
    (List.range l.length).mapM (getAt l) = .ok l := by
  induction l with
  | nil => rfl
  | cons a l ih =>
    have hzero : getAt (a :: l) 0 = .ok a := by
      simp only [getAt, List.getElem?_cons_zero]
    rw [List.length_cons, List.range_succ_eq_map, List.mapM_cons, mapM_getAt_map_succ, ih, hzero]
    rfl


theorem finsum_dotProduct {F : Type} [LinearOrderedField F] {m n : Nat} (u : Fin m → F)
    (f : Fin n → Fin m → F) :
    Matrix.dotProduct (∑ j, f j) u = ∑ j, Matrix.dotProduct (f j) u := by
  rw [Matrix.dotProduct_comm, dotProduct_finsum]
  exact Finset.sum_congr rfl (fun j _ => Matrix.dotProduct_comm _ _)

theorem combination_dotProduct_residual {F : Type} [LinearOrderedField F] {m n : Nat}
    (a : Fin n → Fin m → F) (r : Fin m → F) (g : Fin n → F)
    (h : ∀ k, Matrix.dotProduct (a k) r = 0) :
    Matrix.dotProduct (∑ j, g j • a j) r = 0 := by
  rw [finsum_dotProduct]
  refine Finset.sum_eq_zero (fun j _ => ?_)
  rw [Matrix.smul_dotProduct, h j, smul_zero]

theorem residual_pythagoras {F : Type} [LinearOrderedField F] {m n : Nat}
    (a : Fin n → Fin m → F) (y : Fin m → F) (β z : Fin n → F)
    (h : ∀ k, Matrix.dotProduct (a k) (∑ j, β j • a j - y) = 0) :
    Matrix.dotProduct (∑ j, z j • a j - y) (∑ j, z j • a j - y)
      = Matrix.dotProduct (∑ j, β j • a j - y) (∑ j, β j • a j - y)
        + Matrix.dotProduct (∑ j, (z j - β j) • a j) (∑ j, (z j - β j) • a j) := by
  have hsplit : ∑ j, z j • a j - y = (∑ j, β j • a j - y) + ∑ j, (z j - β j) • a j := by
    simp only [sub_smul, Finset.sum_sub_distrib]
    abel
  have hwr := combination_dotProduct_residual a _ (fun j => z j - β j) h
  have hrw : Matrix.dotProduct (∑ j, β j • a j - y) (∑ j, (z j - β j) • a j) = 0 := by
    rw [Matrix.dotProduct_comm]; exact hwr
  rw [hsplit, Matrix.add_dotProduct, Matrix.dotProduct_add, Matrix.dotProduct_add, hwr, hrw]
  ring

theorem dotProduct_self_nonneg_aux {F : Type} [LinearOrderedField F] {m : Nat} (v : Fin m → F) :
    0 ≤ Matrix.dotProduct v v :=
  Finset.sum_nonneg (fun i _ => mul_self_nonneg (v i))

theorem residual_zero_of_square {F : Type} [LinearOrderedField F] {m n : Nat}
    (a : Fin n → Fin m → F) (y : Fin m → F) (β : Fin n → F)
    (h : ∀ k, Matrix.dotProduct (a k) (∑ j, β j • a j - y) = 0)
    (hli : LinearIndependent F a) (hnm : m = n) : ∑ j, β j • a j = y := by
  subst hnm
  have hspan : Submodule.span F (Set.range a) = ⊤ :=
    hli.span_eq_top_of_card_eq_finrank' (by simp)
  have hy : y ∈ Submodule.span F (Set.range a) := by rw [hspan]; trivial
  obtain ⟨g, hg⟩ := (mem_span_range_iff_exists_fun F).mp hy
  have hr : ∑ j, β j • a j - y = ∑ j, (β j - g j) • a j := by
    rw [← hg]
    simp only [sub_smul, Finset.sum_sub_distrib]
  have h0 : Matrix.dotProduct (∑ j, β j • a j - y) (∑ j, β j • a j - y) = 0 := by
    nth_rewrite 1 [hr]
    exact combination_dotProduct_residual a _ _ h
  exact sub_eq_zero.mp (Matrix.dotProduct_self_eq_zero.mp h0)

theorem minimiser_unique {F : Type} [LinearOrderedField F] {m n : Nat}
    (a : Fin n → Fin m → F) (y : Fin m → F) (β z : Fin n → F)
    (h : ∀ k, Matrix.dotProduct (a k) (∑ j, β j • a j - y) = 0)
    (hli : ∀ g : Fin n → F, ∑ j, g j • a j = 0 → g = 0)
    (hz : Matrix.dotProduct (∑ j, z j • a j - y) (∑ j, z j • a j - y)
      ≤ Matrix.dotProduct (∑ j, β j • a j - y) (∑ j, β j • a j - y)) : z = β := by
  rw [residual_pythagoras a y β z h] at hz
  have hw := dotProduct_self_nonneg_aux (∑ j, (z j - β j) • a j)
  have hw0 : Matrix.dotProduct (∑ j, (z j - β j) • a j) (∑ j, (z j - β j) • a j) = 0 := by
    linarith
  have hg := hli (fun j => z j - β j) (Matrix.dotProduct_self_eq_zero.mp hw0)
  funext j
  exact sub_eq_zero.mp (congrFun hg j)

theorem mulVec_eq_sum_columns {F : Type} [LinearOrderedField F] {m n : Nat}
    (A : Matrix (Fin m) (Fin n) F) (x : Fin n → F) :
    Matrix.mulVec A x = ∑ j, x j • A.transpose j := by
  funext i
  simp only [Matrix.mulVec, Matrix.dotProduct, Finset.sum_apply, Pi.smul_apply,
    Matrix.transpose_apply, smul_eq_mul, mul_comm]


theorem sumSquaredResiduals_eq_dotProduct {F : Type} [LinearOrderedField F] {m n : Nat}
    (A : Matrix (Fin m) (Fin n) F) (z : Fin n → F) (b : Fin m → F) :
    sumSquaredResiduals A z b
      = Matrix.dotProduct (∑ j, z j • A.transpose j - b) (∑ j, z j • A.transpose j - b) := by
  rw [← mulVec_eq_sum_columns]
  simp only [sumSquaredResiduals, Matrix.dotProduct, Pi.sub_apply, sq]

theorem sliceVector_ofFn {F : Type} [Zero F] {n : Nat} (β : Fin n → F) :
    sliceVector (List.ofFn β) n = β := by
  funext j
  have hj : j.val < (List.ofFn β).length := by rw [List.length_ofFn]; exact j.isLt
  simp only [sliceVector]
  rw [List.getD_eq_getElem _ _ hj, List.getElem_ofFn]

theorem leastSquares_qrSolve_eq {F : Type} [LinearOrderedField F] (X : List (List F))
    (Y : List F) (c : Nat) (hX : X ≠ []) (hrows : ∀ row ∈ X, row.length = c)
    (hY : Y.length = X.length) (β : Fin c → F)
    (hβ : orthoSolve c (fun j => (designMatrix X c).transpose j) (sliceVector Y X.length)
      = some β) :
    leastSquares qrSolve X Y = .ok (List.ofFn β) := by
  obtain ⟨row0, rest, rfl⟩ := List.exists_cons_of_ne_nil hX
  have h0 : row0.length = c := hrows row0 (List.mem_cons_self _ _)
  subst h0
  have hflat := flatten_length_of_rows _ _ hrows
  have hcols : (fun (j : Fin row0.length) (i : Fin (row0 :: rest).length) =>
      (row0 :: rest).flatten.getD (i.val * row0.length + j.val) 0)
      = fun j => (designMatrix (row0 :: rest) row0.length).transpose j := by
    funext j i
    exact flatten_getD _ _ hrows i.val j.val j.isLt
  have hget : getAt (row0 :: rest) 0 = .ok row0 := by
    simp only [getAt, List.getElem?_cons_zero]
  have hvec : (fun i : Fin (row0 :: rest).length => Y.getD i.val 0)
      = sliceVector Y (row0 :: rest).length := rfl
  have hsolve : qrSolve (row0 :: rest).length row0.length (row0 :: rest).flatten Y
      = .ok (List.ofFn β) := by
    unfold qrSolve
    rw [if_neg (by rw [hflat, hY]; simp), hcols, hvec, hβ]
  have hm := mapM_getAt_range (List.ofFn β)
  rw [List.length_ofFn] at hm
  unfold leastSquares
  rw [hget]
  simp only [Except.bind, bind, hsolve]
  exact hm


theorem leastSquares_qrSolve_spec {F : Type} [LinearOrderedField F] (X : List (List F))
    (Y : List F) (c : Nat) (hc : 0 < c) (hrows : ∀ row ∈ X, row.length = c)
    (hY : Y.length = X.length)
    (hrank : LinearIndependent F (fun j : Fin c => (designMatrix X c).transpose j)) :
    ∃ β : List F, leastSquares qrSolve X Y = .ok β ∧ β.length = c ∧
      Matrix.mulVec (designMatrix X c).transpose
          (Matrix.mulVec (designMatrix X c) (sliceVector β c))
        = Matrix.mulVec (designMatrix X c).transpose (sliceVector Y X.length) ∧
      (∀ z : Fin c → F,
        sumSquaredResiduals (designMatrix X c) (sliceVector β c) (sliceVector Y X.length)
          ≤ sumSquaredResiduals (designMatrix X c) z (sliceVector Y X.length)) ∧
      (∀ z : Fin c → F,
        sumSquaredResiduals (designMatrix X c) z (sliceVector Y X.length)
          ≤ sumSquaredResiduals (designMatrix X c) (sliceVector β c) (sliceVector Y X.length) →
        z = sliceVector β c) ∧
      (X.length = c →
        Matrix.mulVec (designMatrix X c) (sliceVector β c) = sliceVector Y X.length) := by
  have hX : X ≠ [] := by
    intro h
    subst h
    exact hrank.ne_zero ⟨0, hc⟩ (funext (fun i => absurd i.isLt (Nat.not_lt_zero _)))
  have hind : ∀ g : Fin c → F, ∑ j, g j • (designMatrix X c).transpose j = 0 → g = 0 :=
    fun g hg => funext (Fintype.linearIndependent_iff.mp hrank g hg)
  obtain ⟨βf, hβ⟩ := orthoSolve_isSome c (fun j => (designMatrix X c).transpose j)
    (sliceVector Y X.length) hind
  have hres := orthoSolve_residual c _ _ _ hβ
  refine ⟨List.ofFn βf, leastSquares_qrSolve_eq X Y c hX hrows hY βf hβ, List.length_ofFn _,
    ?_, ?_, ?_, ?_⟩
  · rw [sliceVector_ofFn, mulVec_eq_sum_columns (designMatrix X c) βf]
    funext k
    have hk := hres k
    rw [Matrix.dotProduct_sub, sub_eq_zero] at hk
    exact hk
  · intro z
    rw [sliceVector_ofFn, sumSquaredResiduals_eq_dotProduct, sumSquaredResiduals_eq_dotProduct,
      residual_pythagoras _ _ βf z hres]
    exact le_add_of_nonneg_right (dotProduct_self_nonneg_aux _)
  · intro z hz
    rw [sliceVector_ofFn] at hz ⊢
    rw [sumSquaredResiduals_eq_dotProduct, sumSquaredResiduals_eq_dotProduct] at hz
    exact minimiser_unique _ _ βf z hres hind hz
  · intro hsq
    rw [sliceVector_ofFn, mulVec_eq_sum_columns]
    exact residual_zero_of_square _ _ βf hres hrank hsq

/-- The test system of `TestLeastSquares` has linearly independent columns. -/
theorem leastSquares_test_columns_independent :
    LinearIndependent ℚ (fun j : Fin 3 =>
      (designMatrix [[(1 : ℚ), 1, 1], [1, 2, 4], [1, 3, 9]] 3).transpose j) := by
  rw [Fintype.linearIndependent_iff]
  intro g hg
  have h0 := congrFun hg ⟨0, by decide⟩
  have h1 := congrFun hg ⟨1, by decide⟩
  have h2 := congrFun hg ⟨2, by decide⟩
  simp [Fin.sum_univ_succ, designMatrix] at h0 h1 h2
  intro i
  fin_cases i
  · show g 0 = 0; linarith
  · show g 1 = 0; linarith
  · show g 2 = 0; linarith

/-- The rows and targets `FindSteinhartCoefficients` builds, over exact arithmetic. -/
theorem FindSteinhartCoefficients_exact {F : Type} [LinearOrderedField F] (lg : F → F)
    (solve : Nat → Nat → List F → List F → Except Failure (List F))
    (points : List (ThermistorPoint F)) :
    FindSteinhartCoefficients (exactOps lg) solve points
      = (leastSquares solve
          (points.map (fun p => [1, lg p.Resistance, lg p.Resistance ^ 3]))
          (points.map (fun p => 1 / (p.Temp + 27315 / 100)))).bind
        (fun coeffs => .ok { c0 := coeffs.getD 0 0, c1 := coeffs.getD 1 0,
                             c2 := coeffs.getD 2 0 }) := by
  have hX : (points.map (fun p =>
      let lnR := (exactOps lg).log p.Resistance
      [(exactOps lg).ofRat 1, lnR, (exactOps lg).mul ((exactOps lg).mul lnR lnR) lnR]))
      = points.map (fun p => [1, lg p.Resistance, lg p.Resistance ^ 3]) := by
    refine List.map_congr_left (fun p _ => ?_)
    show [((1 : ℚ) : F), lg p.Resistance, lg p.Resistance * lg p.Resistance * lg p.Resistance]
      = [1, lg p.Resistance, lg p.Resistance ^ 3]
    rw [Rat.cast_one, pow_three, mul_assoc]
  have hY : (points.map (fun p => (exactOps lg).div ((exactOps lg).ofRat 1)
      ((exactOps lg).add p.Temp (KelvinToCelsius (exactOps lg)))))
      = points.map (fun p => 1 / (p.Temp + 27315 / 100)) := by
    refine List.map_congr_left (fun p _ => ?_)
    show ((1 : ℚ) : F) / (p.Temp + ((27315 / 100 : ℚ) : F)) = 1 / (p.Temp + 27315 / 100)
    push_cast
    rfl
  unfold FindSteinhartCoefficients
  simp only []
  rw [hX, hY]
  simp only [exactOps_ofRat, Rat.cast_zero]
  rfl

/-! ## C14: the least-squares solution -/

/-- C14: over exact arithmetic, for every design matrix `X` (rows of one length `c`, at least
one column) whose columns are linearly independent and every target `Y` as long as `X`,
`leastSquares` returns without error a vector `β` of length `c` that satisfies the normal
equations `Xᵀ X β = Xᵀ Y`, minimises the sum of squared residuals `|X z - Y|^2` over all `z`
and is the only minimiser; when `X` is square, `X β = Y`.  When `X` and `Y` are the rows
`[1, ln R, (ln R)^3]` and the targets `1 / (T + 273.15)` of a list of points,
`FindSteinhartCoefficients` returns this `β` as its three coefficients. -/
theorem leastSquares_returns_least_squares_solution {F : Type} [LinearOrderedField F]
    (X : List (List F)) (Y : List F) (c : Nat) (hc : 0 < c)
    (hrows : ∀ row ∈ X, row.length = c) (hY : Y.length = X.length)
    (hrank : LinearIndependent F (fun j : Fin c => (designMatrix X c).transpose j)) :
    (∃ β : List F, leastSquares qrSolve X Y = .ok β ∧ β.length = c ∧
      Matrix.mulVec (designMatrix X c).transpose
          (Matrix.mulVec (designMatrix X c) (sliceVector β c))
        = Matrix.mulVec (designMatrix X c).transpose (sliceVector Y X.length) ∧
      (∀ z : Fin c → F,
        sumSquaredResiduals (designMatrix X c) (sliceVector β c) (sliceVector Y X.length)
          ≤ sumSquaredResiduals (designMatrix X c) z (sliceVector Y X.length)) ∧
      (∀ z : Fin c → F,
        sumSquaredResiduals (designMatrix X c) z (sliceVector Y X.length)
          ≤ sumSquaredResiduals (designMatrix X c) (sliceVector β c) (sliceVector Y X.length) →
        z = sliceVector β c) ∧
      (X.length = c →
        Matrix.mulVec (designMatrix X c) (sliceVector β c) = sliceVector Y X.length)) ∧
    (∀ (lg : F → F) (points : List (ThermistorPoint F)),
      X = points.map (fun p => [1, lg p.Resistance, lg p.Resistance ^ 3]) →
      Y = points.map (fun p => 1 / (p.Temp + 27315 / 100)) →
      ∃ co : Coeff F, FindSteinhartCoefficients (exactOps lg) qrSolve points = .ok co ∧
        leastSquares qrSolve X Y = .ok [co.c0, co.c1, co.c2]) := by
  have hspec := leastSquares_qrSolve_spec X Y c hc hrows hY hrank
  refine ⟨hspec, ?_⟩
  intro lg points hXe hYe
  obtain ⟨β, hβ, hlen, -⟩ := hspec
  have hc3 : c = 3 := by
    cases points with
    | nil =>
      subst hXe
      simp [leastSquares, getAt, bind, Except.bind] at hβ
    | cons p ps =>
      have h := hrows [1, lg p.Resistance, lg p.Resistance ^ 3] (by rw [hXe]; simp)
      simpa using h.symm
  subst hc3
  obtain ⟨b0, b1, b2, rfl⟩ : ∃ b0 b1 b2, β = [b0, b1, b2] := by
    match β, hlen with
    | [b0, b1, b2], _ => exact ⟨b0, b1, b2, rfl⟩
  refine ⟨{ c0 := b0, c1 := b1, c2 := b2 }, ?_, hβ⟩
  rw [FindSteinhartCoefficients_exact, ← hXe, ← hYe, hβ]
  rfl

/-- Witness for C14: the system of `TestLeastSquares`, `X = [[1,1,1],[1,2,4],[1,3,9]]` and
`Y = [9,18,31]`, for which `leastSquares` returns `[4, 3, 2]`. -/
theorem leastSquares_returns_least_squares_solution_witness :
    (0 < 3) ∧
    (∀ row ∈ [[(1 : ℚ), 1, 1], [1, 2, 4], [1, 3, 9]], row.length = 3) ∧
    ([(9 : ℚ), 18, 31].length = [[(1 : ℚ), 1, 1], [1, 2, 4], [1, 3, 9]].length) ∧
    leastSquares qrSolve [[(1 : ℚ), 1, 1], [1, 2, 4], [1, 3, 9]] [9, 18, 31]
      = .ok [4, 3, 2] := by
  have hrows : ∀ row ∈ [[(1 : ℚ), 1, 1], [1, 2, 4], [1, 3, 9]], row.length = 3 := by
    intro row hrow
    simp only [List.mem_cons, List.mem_singleton, List.not_mem_nil, or_false] at hrow
    rcases hrow with h | h | h <;> rw [h] <;> rfl
  refine ⟨by decide, hrows, rfl, ?_⟩
  obtain ⟨β, hβ, hlen, -, -, -, hsq⟩ :=
    (leastSquares_returns_least_squares_solution [[(1 : ℚ), 1, 1], [1, 2, 4], [1, 3, 9]]
      [9, 18, 31] 3 (by decide) hrows rfl leastSquares_test_columns_independent).1
  obtain ⟨b0, b1, b2, rfl⟩ : ∃ b0 b1 b2, β = [b0, b1, b2] := by
    match β, hlen with
    | [b0, b1, b2], _ => exact ⟨b0, b1, b2, rfl⟩
  have hs := hsq rfl
  have h0 := congrFun hs ⟨0, by decide⟩
  have h1 := congrFun hs ⟨1, by decide⟩
  have h2 := congrFun hs ⟨2, by decide⟩
  simp [Matrix.mulVec, Matrix.dotProduct, Fin.sum_univ_succ, designMatrix, sliceVector]
    at h0 h1 h2
  have e0 : b0 = 4 := by linarith
  have e1 : b1 = 3 := by linarith
  have e2 : b2 = 2 := by linarith
  rw [hβ, e0, e1, e2]

end ThermistorLut
